import Mathlib

/-!
# json2sql: type inference and SQL rendering

A shallow embedding of `pkg/json2sql/json2sql.go` and proofs about it.

Modelling conventions.

* A Go `string` is a Lean `String`.  Go orders strings byte-wise; on valid UTF-8
  that is the lexicographic order of the code points, `strLE` below.
* A Go `map[string]V` is a `GoMap V`: a list of bindings without a repeated key.
  The order of the list stands for the unspecified iteration order of `range`.
* A value stored in an `interface{}` by `json.Unmarshal` is a `JsonValue`.
* A run-time panic is the `error` case of `Except Panic`;  an `error` result
  value of a Go function is an `Option GoError` next to the returned text.
* The two library routines whose behaviour is not fixed here, the shortest
  float formatter behind the verb `%v` and `json.Unmarshal`, are the fields of
  `GoLib`; every definition that reaches one of them takes a `GoLib`.
-/

namespace Json2sql

/-! ## Strings -/

/-- Byte-wise comparison of Go strings, `a <= b`. -/
def strLE (a b : String) : Prop := a.data ≤ b.data

instance strLE.decidable : DecidableRel strLE :=
  fun a b => inferInstanceAs (Decidable (a.data ≤ b.data))

instance strLE.isTotal : IsTotal String strLE := ⟨fun a b => le_total a.data b.data⟩

instance strLE.isTrans : IsTrans String strLE :=
  ⟨fun a b c hab hbc => le_trans (a := a.data) (b := b.data) (c := c.data) hab hbc⟩

instance strLE.isAntisymm : IsAntisymm String strLE :=
  ⟨fun _ _ hab hba => String.ext (le_antisymm hab hba)⟩

/-- Library `sort.Strings`: the ascending rearrangement of a slice of strings. -/
def sortStrings (keys : List String) : List String :=
  keys.insertionSort strLE

/-- The single-quote character. -/
def quote : Char := Char.ofNat 39

/-- Library `strings.Join`. -/
def stringsJoin (elems : List String) (sep : String) : String :=
  sep.intercalate elems

/-! ## Numbers -/

/-- A finite `float64`, the number `(-1)^neg * mant * 2^exp`.  `json.Unmarshal`
yields finite numbers only, so NaN and the infinities are left out. -/
structure Float64 where
  neg : Bool
  mant : Nat
  exp : Int
deriving DecidableEq

namespace Float64

/-- Library `math.Modf`: the integer part and the fractional part of `f`, both
carrying the sign of `f`. -/
def Modf (f : Float64) : Float64 × Float64 :=
  if 0 ≤ f.exp then (f, ⟨f.neg, 0, 0⟩)
  else (⟨f.neg, f.mant / 2 ^ (-f.exp).toNat, 0⟩, ⟨f.neg, f.mant % 2 ^ (-f.exp).toNat, f.exp⟩)

/-- The comparison `f == 0.0`, true for both zeros. -/
def isZero (f : Float64) : Bool := f.mant == 0

/-- The rational number that `f` stands for. -/
def toRat (f : Float64) : ℚ := (if f.neg then -1 else 1) * (f.mant : ℚ) * (2 : ℚ) ^ f.exp

/-- The magnitude of `f` with its fraction dropped. -/
def truncNat (f : Float64) : Nat :=
  if 0 ≤ f.exp then f.mant * 2 ^ f.exp.toNat else f.mant / 2 ^ (-f.exp).toNat

/-- The conversion `int(f)` to a 64-bit `int`: truncation toward zero.  For a
value outside the range of `int` the language leaves the result to the
implementation; the amd64 result, the least `int`, is taken. -/
def toInt (f : Float64) : Int :=
  let t : Int := if f.neg then -(f.truncNat : Int) else (f.truncNat : Int)
  if -(2 : Int) ^ 63 ≤ t ∧ t < (2 : Int) ^ 63 then t else -(2 : Int) ^ 63

/-- The magnitude of `f` times `10^6`, rounded to the nearest integer, a tie
going to the even one. -/
def scaled6 (f : Float64) : Nat :=
  if 0 ≤ f.exp then f.mant * 2 ^ f.exp.toNat * 10 ^ 6
  else
    let den := 2 ^ (-f.exp).toNat
    let q := f.mant * 10 ^ 6 / den
    let r := f.mant * 10 ^ 6 % den
    if den < 2 * r ∨ (2 * r = den ∧ q % 2 = 1) then q + 1 else q

/-- Decimal digits of `n`, padded on the left with zeros to `width` digits. -/
def padZeros (width n : Nat) : String :=
  String.mk (List.replicate (width - (Nat.repr n).length) (Char.ofNat 48)) ++ Nat.repr n

/-- The verb `%f` on a `float64`: fixed-point text with six digits after the
point. -/
def fmtFixed6 (f : Float64) : String :=
  (if f.neg then "-" else "") ++ Nat.repr (f.scaled6 / 10 ^ 6) ++ "." ++ padZeros 6 (f.scaled6 % 10 ^ 6)

end Float64

/-- The verb `%d` on an `int`. -/
def fmtDecimal (n : Int) : String :=
  if n < 0 then "-" ++ Nat.repr n.natAbs else Nat.repr n.natAbs

/-! ## Values and maps -/

/-- The dynamic values `json.Unmarshal` stores in an `interface{}`.  The
bindings of a nested object are listed in ascending key order, the order in
which `fmt` prints a map. -/
inductive JsonValue where
  | str (s : String)
  | num (x : Float64)
  | bool (b : Bool)
  | obj (fields : List (String × JsonValue))
  | arr (items : List JsonValue)
  | null

/-- The name `fmt` and the run-time system print for the dynamic type. -/
def JsonValue.typeName : JsonValue → String
  | .str _ => "string"
  | .num _ => "float64"
  | .bool _ => "bool"
  | .obj _ => "map[string]interface \x7b\x7d"
  | .arr _ => "[]interface \x7b\x7d"
  | .null => "nil"

/-- A Go map with string keys. -/
structure GoMap (V : Type) where
  entries : List (String × V)
  nodup : (entries.map Prod.fst).Nodup

namespace GoMap

variable {V : Type}

/-- The map literal without bindings, also the nil map. -/
def empty : GoMap V := ⟨[], List.nodup_nil⟩

/-- The keys in iteration order. -/
def keys (m : GoMap V) : List String := m.entries.map Prod.fst

/-- The comma-ok lookup `v, ok := m[k]`. -/
def get? (m : GoMap V) (k : String) : Option V := m.entries.lookup k

/-- The index expression `m[k]`, the zero value of `V` for an absent key. -/
def index (zero : V) (m : GoMap V) (k : String) : V := (m.get? k).getD zero

/-- The assignment `m[k] = v`. -/
def set (m : GoMap V) (k : String) (v : V) : GoMap V :=
  ⟨(k, v) :: m.entries.filter (fun e => e.1 != k), by
    have hsub : (m.entries.filter (fun e => e.1 != k)).Sublist m.entries := List.filter_sublist _
    have hnd : ((m.entries.filter (fun e => e.1 != k)).map Prod.fst).Nodup :=
      m.nodup.sublist (hsub.map Prod.fst)
    rw [List.map_cons, List.nodup_cons]
    refine ⟨?_, hnd⟩
    intro hmem
    obtain ⟨e, he, hk⟩ := List.mem_map.1 hmem
    have := (List.mem_filter.1 he).2
    simp [hk] at this⟩

end GoMap

/-- Source `type JsonObject map[string]interface{}`. -/
abbrev JsonObject := GoMap JsonValue

/-- Source `type TypeMap map[string]string`. -/
abbrev TypeMap := GoMap String

/-! ## Failures and the library -/

/-- A Go `error` value. -/
structure GoError where
  msg : String
deriving DecidableEq

/-- A run-time panic: a failed type assertion `value.(want)` on a value of
dynamic type `dyn`, or `panic(err)` called by the program. -/
inductive Panic where
  | interfaceConversion (dyn want : String)
  | ofError (err : GoError)
deriving DecidableEq

/-- The library routines taken as given. -/
structure GoLib where
  /-- Library `strconv.FormatFloat(x, 'g', -1, 64)`, the text of a `float64`
  under the verb `%v`. -/
  formatFloatG : Float64 → String
  /-- Library `json.Unmarshal(line, &object)` into a fresh `JsonObject`: the
  decoded object, or the error it returns. -/
  unmarshal : String → Except GoError JsonObject

/-! ## The formatting verbs of `fmt` -/

/-- The verbs in the format strings of the program on an `interface{}` operand:
`%f`, `%t` and `%s`. -/
inductive Verb where
  | f
  | t
  | s
deriving DecidableEq

/-- The letter of a verb. -/
def Verb.letter : Verb → String
  | .f => "f"
  | .t => "t"
  | .s => "s"

/-- The text `fmt` writes for an operand its verb does not accept,
`%!verb(type=value)` with the value under `%v`. -/
def badVerb (verb : Verb) (typeName value : String) : String :=
  "%!" ++ verb.letter ++ "(" ++ typeName ++ "=" ++ value ++ ")"

/-- A `string` operand: `%s` writes it as it is. -/
def fmtString (verb : Verb) (s : String) : String :=
  if verb = .s then s else badVerb verb "string" s

/-- A `bool` operand: `%t` writes `true` or `false`. -/
def fmtBool (verb : Verb) (b : Bool) : String :=
  if verb = .t then (if b then "true" else "false")
  else badVerb verb "bool" (if b then "true" else "false")

/-- A `float64` operand: `%f` writes six decimals. -/
def fmtFloat (lib : GoLib) (verb : Verb) (x : Float64) : String :=
  if verb = .f then x.fmtFixed6 else badVerb verb "float64" (lib.formatFloatG x)

mutual
/-- How `fmt` prints a value held inside a map or a slice under a verb. -/
def printValue (lib : GoLib) (verb : Verb) : JsonValue → String
  | .null => "<nil>"
  | .str s => fmtString verb s
  | .num x => fmtFloat lib verb x
  | .bool b => fmtBool verb b
  | .obj fields => "map[" ++ " ".intercalate (printFields lib verb fields) ++ "]"
  | .arr items => "[" ++ " ".intercalate (printItems lib verb items) ++ "]"
/-- The `key:value` texts of the bindings of a map. -/
def printFields (lib : GoLib) (verb : Verb) : List (String × JsonValue) → List String
  | [] => []
  | (k, v) :: rest => (fmtString verb k ++ ":" ++ printValue lib verb v) :: printFields lib verb rest
/-- The texts of the elements of a slice. -/
def printItems (lib : GoLib) (verb : Verb) : List JsonValue → List String
  | [] => []
  | v :: rest => printValue lib verb v :: printItems lib verb rest
end

/-- How `fmt.Sprintf` prints one operand of type `interface{}` under a verb: a
nil operand is a bad operand for each of the three verbs. -/
def printArg (lib : GoLib) (verb : Verb) : JsonValue → String
  | .null => "%!" ++ verb.letter ++ "(<nil>)"
  | value => printValue lib verb value

/-- The type assertion `value.(string)`. -/
def assertString (value : JsonValue) : Except Panic String :=
  match value with
  | .str s => .ok s
  | other => .error (.interfaceConversion other.typeName "string")

/-- The type assertion `value.(float64)`. -/
def assertFloat64 (value : JsonValue) : Except Panic Float64 :=
  match value with
  | .num x => .ok x
  | other => .error (.interfaceConversion other.typeName "float64")

/-! ## The functions of `json2sql.go` -/

/-- Source `DefaultValueTypeToSQLType`, a type switch on the value. -/
def DefaultValueTypeToSQLType (value : JsonValue) : String :=
  match value with
  | .str _ => "VARCHAR"
  | .num x => if (Float64.Modf x).2.isZero then "INTEGER" else "DOUBLE"
  | .bool _ => "BOOLEAN"
  | .obj _ => "ROW"
  | _ => "VARCHAR"

/-- Library `strings.ReplaceAll(value, "'", "''")` on the characters of `value`. -/
def replaceQuotes : List Char → List Char
  | [] => []
  | c :: cs => if c = quote then quote :: quote :: replaceQuotes cs else c :: replaceQuotes cs

/-- Source `EscapeSingleQuotes`. -/
def EscapeSingleQuotes (value : String) : String :=
  String.mk (replaceQuotes value.data)

/-- Source `TypeMap.ValueToSQLValue`, a switch on the tag `o[field]`. -/
def TypeMap.ValueToSQLValue (lib : GoLib) (o : TypeMap) (field : String) (value : JsonValue) :
    Except Panic String :=
  if o.index "" field = "VARCHAR" then
    (assertString value).map (fun s => "'" ++ EscapeSingleQuotes s ++ "'")
  else if o.index "" field = "DOUBLE" then
    .ok (printArg lib .f value)
  else if o.index "" field = "INTEGER" then
    (assertFloat64 value).map (fun x => fmtDecimal x.toInt)
  else if o.index "" field = "BOOLEAN" then
    .ok (printArg lib .t value)
  else
    .ok ("'" ++ printArg lib .s value ++ "'")

/-- Source `JsonObject.SortedKeys`. -/
def JsonObject.SortedKeys (o : JsonObject) : List String :=
  sortStrings (o.keys.foldl (fun keys key => keys ++ [key]) [])

/-- Source `TypeMap.SortedKeys`. -/
def TypeMap.SortedKeys (o : TypeMap) : List String :=
  sortStrings (o.keys.foldl (fun keys key => keys ++ [key]) [])

/-- Source `TypeMap.CreateCreateStatement`; the error result is always nil. -/
def TypeMap.CreateCreateStatement (o : TypeMap) (table : String) : String × Option GoError :=
  let declarations := (TypeMap.SortedKeys o).foldl
    (fun declarations key => declarations ++ [key ++ " " ++ o.index "" key]) []
  ("CREATE TABLE IF NOT EXISTS " ++ table ++ " (" ++ stringsJoin declarations ", " ++ ");", none)

/-- Source `JsonObject.CreateTypeMap`. -/
def JsonObject.CreateTypeMap (o : JsonObject) : TypeMap :=
  (JsonObject.SortedKeys o).foldl
    (fun typeMap key => typeMap.set key (DefaultValueTypeToSQLType (o.index .null key)))
    GoMap.empty

/-- Source `JsonObject.CreateInsertStatementHeader`; the error result is always
nil. -/
def JsonObject.CreateInsertStatementHeader (o : JsonObject) (table : String) :
    String × Option GoError :=
  ("INSERT INTO " ++ table ++ " (" ++ stringsJoin (JsonObject.SortedKeys o) ", " ++ ") VALUES", none)

/-- Source `JsonObject.CreateValueStatement`; the error result is always nil, a
panic of `ValueToSQLValue` passes through. -/
def JsonObject.CreateValueStatement (lib : GoLib) (o : JsonObject) (typeMap : TypeMap) :
    Except Panic (String × Option GoError) :=
  ((JsonObject.SortedKeys o).foldlM
    (fun values key =>
      (TypeMap.ValueToSQLValue lib typeMap key (o.index .null key)).map (fun v => values ++ [v]))
    []).map
    (fun values => ("(" ++ stringsJoin values ", " ++ ")", none))

/-! ## The driver -/

/-- Library `reader.ReadBytes('\n')` on the bytes still unread: the line up to
and including the first newline together with the bytes after it, or `none`
when no newline is left, where the library hands back the unterminated rest
with `io.EOF`. -/
def ReadBytes : List Char → Option (List Char × List Char)
  | [] => none
  | c :: cs =>
    if c = '\n' then some ([c], cs)
    else match ReadBytes cs with
      | none => none
      | some (line, rest) => some (c :: line, rest)

/-- What a run leaves behind: the text written to standard output, and the
panic that ended it, if one did. -/
structure Run where
  stdout : String
  panic : Option Panic
deriving DecidableEq

/-- Library `fmt.Println(s)` on the output written so far. -/
def println (out s : String) : String := out ++ s ++ "\n"

/-- The block of `MainLoop` run on the first line only, after the type map is
set: it writes the CREATE TABLE line when `create` holds, then the INSERT
header line, and panics on an error result.  It yields the output and the
panic, if any. -/
def MainLoop.firstLine (table : String) (create : Bool) (object : JsonObject)
    (typeMap : TypeMap) (out : String) : String × Option Panic :=
  match (if create then
      (match TypeMap.CreateCreateStatement typeMap table with
        | (sql, none) => (println out sql, none)
        | (_, some err) => (out, some (Panic.ofError err)))
    else (out, none) : String × Option Panic) with
  | (out1, some p) => (out1, some p)
  | (out1, none) =>
    match JsonObject.CreateInsertStatementHeader object table with
    | (sql, none) => (println out1 sql, none)
    | (_, some err) => (out1, some (Panic.ofError err))

/-- The `for` loop of `MainLoop`, from the state at the top of an iteration:
the type map, the flag `onFirstLine`, the output so far and the unread input. -/
def MainLoop.loop (lib : GoLib) (table : String) (create : Bool)
    (typeMap : TypeMap) (onFirstLine : Bool) (out : String) (input : List Char) : Run :=
  match hread : ReadBytes input with
  | none => ⟨println out ";", none⟩
  | some (line, rest) =>
    match lib.unmarshal (String.mk line) with
    | .error err => ⟨out, some (.ofError err)⟩
    | .ok object =>
      let typeMap1 := if onFirstLine then JsonObject.CreateTypeMap object else typeMap
      match (if onFirstLine then MainLoop.firstLine table create object typeMap1 out
          else (out, none) : String × Option Panic) with
      | (out1, some p) => ⟨out1, some p⟩
      | (out1, none) =>
        match JsonObject.CreateValueStatement lib object typeMap1 with
        | .error p => ⟨out1, some p⟩
        | .ok (_, some err) => ⟨out1, some (.ofError err)⟩
        | .ok (sql, none) =>
          MainLoop.loop lib table create typeMap1 false
            (if rest = [] then println (out1 ++ sql) "" else println (out1 ++ sql) ",") rest
termination_by input.length
decreasing_by
  have hlen : ∀ (l line rest : List Char), ReadBytes l = some (line, rest) → rest.length < l.length := by
    intro l
    induction l with
    | nil => intro line rest h; simp [ReadBytes] at h
    | cons c cs ih =>
      intro line rest h
      simp only [ReadBytes] at h
      split at h
      · simp only [Option.some.injEq, Prod.mk.injEq] at h
        rw [← h.2]; simp
      · split at h
        · simp at h
        · rename_i l2 r2 hrec
          simp only [Option.some.injEq, Prod.mk.injEq] at h
          have := ih l2 r2 hrec
          rw [← h.2]; simp; omega
  exact hlen _ _ _ hread

/-- Source `MainLoop`, run on the bytes of standard input. -/
def MainLoop (lib : GoLib) (table : String) (create : Bool) (stdin : String) : Run :=
  MainLoop.loop lib table create GoMap.empty true "" stdin.data

/-! ## Reference descriptions of the output -/

/-- The text made of the given lines, each one ended by a newline. -/
def unlines : List String → String
  | [] => ""
  | l :: ls => l ++ "\n" ++ unlines ls

/-- The tuple lines of one INSERT statement: a comma ends every tuple but the
last. -/
def tupleLines : List String → List String
  | [] => []
  | [t] => [t]
  | t :: t2 :: ts => (t ++ ",") :: tupleLines (t2 :: ts)

/-- The lines `MainLoop` writes before the first tuple: the CREATE TABLE line
of the first record when `create` holds, then its INSERT header line. -/
def headerLines (table : String) (create : Bool) (first : JsonObject) : List String :=
  (if create then [(TypeMap.CreateCreateStatement (JsonObject.CreateTypeMap first) table).1] else [])
    ++ [(JsonObject.CreateInsertStatementHeader first table).1]

/-- A driver that renders every record of a list against one fixed type map
`m`, writing after `out`: a tuple per record, a comma after each but the last,
then the line `;`; it stops at the first record whose rendering panics. -/
def emitTuples (lib : GoLib) (m : TypeMap) (out : String) : List JsonObject → Run
  | [] => ⟨println out ";", none⟩
  | r :: rs =>
    match JsonObject.CreateValueStatement lib r m with
    | .error p => ⟨out, some p⟩
    | .ok (_, some err) => ⟨out, some (.ofError err)⟩
    | .ok (sql, none) =>
      emitTuples lib m (if rs.isEmpty then println (out ++ sql) "" else println (out ++ sql) ",") rs

/-- The type inference as the specification words it: text gives VARCHAR, a
number INTEGER when its fractional part is zero and DOUBLE otherwise, a
boolean BOOLEAN, a nested object ROW, an array or null VARCHAR. -/
def inferType (value : JsonValue) : String :=
  match value with
  | .str _ => "VARCHAR"
  | .num x => if Int.fract x.toRat = 0 then "INTEGER" else "DOUBLE"
  | .bool _ => "BOOLEAN"
  | .obj _ => "ROW"
  | .arr _ => "VARCHAR"
  | .null => "VARCHAR"

/-- The type map of `TestTypeMap_ValueToSQLValue`. -/
def testTypeMap : TypeMap :=
  ⟨[("field1", "VARCHAR"), ("field2", "DOUBLE"), ("field3", "INTEGER"), ("field4", "BOOLEAN"),
    ("field5", "UNKNOWN")], by decide⟩

/-- The record of `TestJsonObject_CreateTypeMap`, `foo` bound to the text `bar`
and `baz` to the number 42. -/
def recordFooBaz : JsonObject :=
  ⟨[("foo", .str "bar"), ("baz", .num ⟨false, 42, 0⟩)], by decide⟩

/-- One input line with what becomes of it: the text of the line without its
newline, the object it decodes to and the tuple it is rendered to. -/
structure Rendered where
  line : String
  object : JsonObject
  tuple : String

/-! ## The scenarios

The library restricted to the lines and numbers of the scenarios of the
specification: what `json.Unmarshal` returns on each of these lines, and the
shortest text of each of these numbers. -/

/-- The record of the first scenario, `baz` bound to the text `qux` and `foo`
to the number 1. -/
def recordBazFoo : JsonObject :=
  ⟨[("baz", .str "qux"), ("foo", .num ⟨false, 1, 0⟩)], by decide⟩

/-- The record binding `a` to the given value. -/
def recordA (value : JsonValue) : JsonObject := ⟨[("a", value)], by simp⟩

/-- The decoder on the lines of the scenarios. -/
def scenarioUnmarshal (line : String) : Except GoError JsonObject :=
  if line = "\x7b\"baz\":\"qux\",\"foo\":1\x7d\n" then .ok recordBazFoo
  else if line = "\x7b\"a\":1\x7d\n" then .ok (recordA (.num ⟨false, 1, 0⟩))
  else if line = "\x7b\"a\":2\x7d\n" then .ok (recordA (.num ⟨false, 2, 0⟩))
  else if line = "\x7b\"a\":2.5\x7d\n" then .ok (recordA (.num ⟨false, 5, -1⟩))
  else if line = "\x7b\"a\":null\x7d\n" then .ok (recordA .null)
  else if line = "\x7b\"a\":\"x\"\x7d\n" then .ok (recordA (.str "x"))
  else .error ⟨"not a line of the scenarios"⟩

/-- The shortest text of the numbers of the scenarios. -/
def scenarioFormatFloatG (x : Float64) : String :=
  if x = ⟨false, 1, 0⟩ then "1"
  else if x = ⟨false, 2, 0⟩ then "2"
  else if x = ⟨false, 5, -1⟩ then "2.5"
  else ""

/-- The library of the scenarios. -/
def scenarioLib : GoLib := ⟨scenarioFormatFloatG, scenarioUnmarshal⟩

/-- The type map of `TestTypeMap_CreateCreateStatement`, its bindings in the
order the test writes them. -/
def testTypeMapCreate : TypeMap :=
  ⟨[("field2", "DOUBLE"), ("field1", "VARCHAR"), ("field3", "INTEGER"), ("field4", "BOOLEAN"),
    ("field5", "UNKNOWN")], by decide⟩

/-- The record of `TestJsonObject_SortedKeys`, `foo` bound to the text `bar` and
`baz` to the text `qux`. -/
def recordFooBazText : JsonObject :=
  ⟨[("foo", .str "bar"), ("baz", .str "qux")], by decide⟩

/-- The unescaping of the round-trip law on the characters of a text: read from
the left, each pair of single quotes becomes one single quote and every other
character stays. -/
def collapseQuotes : List Char → List Char
  | [] => []
  | [c] => [c]
  | c :: d :: rest =>
    if c = quote ∧ d = quote then quote :: collapseQuotes rest
    else c :: collapseQuotes (d :: rest)

/-- The unescaping of the round-trip law on a text. -/
def unescapeQuotes (value : String) : String :=
  String.mk (collapseQuotes value.data)

/-- Truncation of a rational number toward zero. -/
def truncTowardZero (q : ℚ) : ℤ := if 0 ≤ q then ⌊q⌋ else ⌈q⌉

/-! ## Lemmas on sorting and maps -/

theorem foldl_append_singleton {α β : Type} (f : α → β) (l : List α) (init : List β) :
    l.foldl (fun acc x => acc ++ [f x]) init = init ++ l.map f := by
  induction l generalizing init with
  | nil => simp
  | cons x xs ih => simp [ih]

theorem sortStrings_perm (l : List String) : (sortStrings l).Perm l :=
  List.perm_insertionSort strLE l

theorem sortStrings_sorted (l : List String) : (sortStrings l).Sorted strLE :=
  List.sorted_insertionSort strLE l

theorem mem_sortStrings {l : List String} {k : String} : k ∈ sortStrings l ↔ k ∈ l :=
  (sortStrings_perm l).mem_iff

theorem sortStrings_eq_of_perm {l₁ l₂ : List String} (h : l₁.Perm l₂) :
    sortStrings l₁ = sortStrings l₂ :=
  List.eq_of_perm_of_sorted
    (((sortStrings_perm l₁).trans h).trans (sortStrings_perm l₂).symm)
    (sortStrings_sorted l₁) (sortStrings_sorted l₂)

theorem JsonObject_SortedKeys_eq (o : JsonObject) : JsonObject.SortedKeys o = sortStrings o.keys := by
  unfold JsonObject.SortedKeys
  rw [foldl_append_singleton (fun k => k)]
  simp

theorem TypeMap_SortedKeys_eq (o : TypeMap) : TypeMap.SortedKeys o = sortStrings o.keys := by
  unfold TypeMap.SortedKeys
  rw [foldl_append_singleton (fun k => k)]
  simp

namespace GoMap

variable {V : Type}

theorem get?_empty (k : String) : (GoMap.empty : GoMap V).get? k = none := rfl

theorem keys_empty : (GoMap.empty : GoMap V).keys = [] := rfl

theorem lookup_filter_ne (l : List (String × V)) (k k2 : String) (h : k2 ≠ k) :
    (l.filter (fun e => e.1 != k)).lookup k2 = l.lookup k2 := by
  induction l with
  | nil => rfl
  | cons e es ih =>
    obtain ⟨a, b⟩ := e
    by_cases hak : a = k
    · subst hak
      have h1 : (k2 == a) = false := by simpa using h
      simp [List.filter_cons, List.lookup_cons, h1, ih]
    · have h2 : (a != k) = true := by simpa using hak
      simp only [List.filter_cons, h2, if_true, List.lookup_cons, ih]

theorem get?_set (m : GoMap V) (k : String) (v : V) (k2 : String) :
    (m.set k v).get? k2 = if k2 = k then some v else m.get? k2 := by
  unfold GoMap.get? GoMap.set
  by_cases h : k2 = k
  · subst h; simp [List.lookup_cons]
  · have h1 : (k2 == k) = false := by simpa using h
    simp only [List.lookup_cons, h1, if_neg h]
    exact lookup_filter_ne m.entries k k2 h

theorem lookup_isSome_iff (l : List (String × V)) (k : String) :
    (l.lookup k).isSome = true ↔ k ∈ l.map Prod.fst := by
  induction l with
  | nil => simp
  | cons e es ih =>
    obtain ⟨a, b⟩ := e
    by_cases hka : k = a
    · subst hka; simp [List.lookup_cons]
    · have h1 : (k == a) = false := by simpa using hka
      simp [List.lookup_cons, h1, ih, hka]

theorem mem_keys_iff (m : GoMap V) (k : String) : k ∈ m.keys ↔ (m.get? k).isSome = true :=
  (lookup_isSome_iff m.entries k).symm

theorem get?_foldl_set (g : String → V) (ks : List String) (m : GoMap V) (k : String) :
    (ks.foldl (fun tm key => tm.set key (g key)) m).get? k
      = if k ∈ ks then some (g k) else m.get? k := by
  induction ks generalizing m with
  | nil => simp
  | cons a as ih =>
    rw [List.foldl_cons, ih, get?_set]
    by_cases h1 : k ∈ as
    · simp [h1]
    · by_cases h2 : k = a
      · subst h2; simp
      · simp [h1, h2]

end GoMap

theorem CreateTypeMap_get? (o : JsonObject) (k : String) :
    (JsonObject.CreateTypeMap o).get? k = (o.get? k).map DefaultValueTypeToSQLType := by
  unfold JsonObject.CreateTypeMap
  rw [GoMap.get?_foldl_set (fun key => DefaultValueTypeToSQLType (o.index .null key)),
    JsonObject_SortedKeys_eq, GoMap.get?_empty]
  by_cases hk : k ∈ o.keys
  · rw [if_pos (mem_sortStrings.2 hk)]
    have hsome := (GoMap.mem_keys_iff o k).1 hk
    unfold GoMap.index
    cases h : o.get? k with
    | none => rw [h] at hsome; simp at hsome
    | some v => simp
  · rw [if_neg (fun hmem => hk (mem_sortStrings.1 hmem))]
    have hnone : o.get? k = none := by
      cases h : o.get? k with
      | none => rfl
      | some v => exact absurd ((GoMap.mem_keys_iff o k).2 (by simp [h])) hk
    simp [hnone]

theorem CreateTypeMap_mem_keys (o : JsonObject) (k : String) :
    k ∈ (JsonObject.CreateTypeMap o).keys ↔ k ∈ o.keys := by
  rw [GoMap.mem_keys_iff, GoMap.mem_keys_iff, CreateTypeMap_get?]
  cases o.get? k <;> simp

theorem CreateTypeMap_keys_perm (o : JsonObject) :
    (JsonObject.CreateTypeMap o).keys.Perm o.keys :=
  (List.perm_ext_iff_of_nodup (JsonObject.CreateTypeMap o).nodup o.nodup).2
    (CreateTypeMap_mem_keys o)

theorem CreateTypeMap_SortedKeys (o : JsonObject) :
    TypeMap.SortedKeys (JsonObject.CreateTypeMap o) = JsonObject.SortedKeys o := by
  rw [TypeMap_SortedKeys_eq, JsonObject_SortedKeys_eq]
  exact sortStrings_eq_of_perm (CreateTypeMap_keys_perm o)

theorem CreateTypeMap_index (o : JsonObject) (k : String) (hk : k ∈ o.keys) :
    (JsonObject.CreateTypeMap o).index "" k = DefaultValueTypeToSQLType (o.index .null k) := by
  unfold GoMap.index
  rw [CreateTypeMap_get?]
  have := (GoMap.mem_keys_iff o k).1 hk
  cases h : o.get? k with
  | none => rw [h] at this; simp at this
  | some v => simp

/-! ## Lemmas on numbers -/

theorem fract_eq_zero_iff (q : ℚ) : Int.fract q = 0 ↔ ∃ z : ℤ, q = z := by
  rw [Int.fract_eq_iff]
  constructor
  · rintro ⟨_, _, z, hz⟩
    exact ⟨z, by simpa using hz⟩
  · rintro ⟨z, hz⟩
    exact ⟨le_refl 0, by norm_num, z, by simpa using hz⟩

theorem mant_div_isInt (s : ℤ) (hs : s = 1 ∨ s = -1) (m k : ℕ) :
    (∃ z : ℤ, (s : ℚ) * (m : ℚ) * ((2 : ℚ) ^ k)⁻¹ = z) ↔ m % 2 ^ k = 0 := by
  have h2 : ((2 : ℚ) ^ k) ≠ 0 := by positivity
  constructor
  · rintro ⟨z, hz⟩
    have h1 : (s : ℚ) * (m : ℚ) = z * (2 : ℚ) ^ k := by
      field_simp at hz
      exact hz
    have h3 : s * (m : ℤ) = z * 2 ^ k := by exact_mod_cast h1
    have h4 : ((2 ^ k : ℕ) : ℤ) ∣ (m : ℤ) := by
      rcases hs with rfl | rfl
      · exact ⟨z, by push_cast; linarith⟩
      · exact ⟨-z, by push_cast; linarith⟩
    exact Nat.mod_eq_zero_of_dvd (Int.natCast_dvd_natCast.1 h4)
  · intro h
    obtain ⟨q, hq⟩ := Nat.dvd_of_mod_eq_zero h
    refine ⟨s * q, ?_⟩
    rw [hq]
    push_cast
    field_simp
    ring

theorem Modf_frac_isZero_iff (x : Float64) :
    (Float64.Modf x).2.isZero = true ↔ Int.fract x.toRat = 0 := by
  rw [fract_eq_zero_iff]
  unfold Float64.Modf Float64.toRat Float64.isZero
  by_cases h : 0 ≤ x.exp
  · rw [if_pos h]
    obtain ⟨n, hn⟩ := Int.eq_ofNat_of_zero_le h
    simp only [beq_self_eq_true, true_iff]
    rw [hn]
    refine ⟨(if x.neg then -1 else 1) * (x.mant : ℤ) * 2 ^ n, ?_⟩
    cases x.neg <;> simp
  · rw [if_neg h]
    have hk : x.exp = -(((-x.exp).toNat : ℕ) : ℤ) := by
      rw [Int.toNat_of_nonneg (by omega)]; ring
    have hpow : (2 : ℚ) ^ x.exp = ((2 : ℚ) ^ (-x.exp).toNat)⁻¹ := by
      conv_lhs => rw [hk]
      rw [zpow_neg, zpow_natCast]
    rw [hpow]
    simp only [beq_iff_eq]
    cases hneg : x.neg
    · have := mant_div_isInt 1 (Or.inl rfl) x.mant (-x.exp).toNat
      simp only [Int.cast_one] at this
      simpa using this.symm
    · have := mant_div_isInt (-1) (Or.inr rfl) x.mant (-x.exp).toNat
      simp only [Int.cast_neg, Int.cast_one] at this
      simpa using this.symm

/-! ## Lemmas on the renderers -/

theorem foldlM_values_ok (f : String → Except Panic String) (ks : List String)
    (vs init : List String) (h : List.Forall₂ (fun k v => f k = .ok v) ks vs) :
    ks.foldlM (fun values key => (f key).map (fun v => values ++ [v])) init = .ok (init ++ vs) := by
  induction h generalizing init with
  | nil => simp [pure, Except.pure]
  | @cons a b l₁ l₂ hkv _ ih =>
    rw [List.foldlM_cons, hkv]
    exact (ih (init ++ [b])).trans (by simp)

theorem MainLoop_loop_eof (lib : GoLib) (table : String) (create : Bool) (typeMap : TypeMap)
    (onFirstLine : Bool) (out : String) (input : List Char) (h : ReadBytes input = none) :
    MainLoop.loop lib table create typeMap onFirstLine out input = ⟨println out ";", none⟩ := by
  rw [MainLoop.loop]
  split
  · rfl
  · rename_i heq
    rw [h] at heq
    exact absurd heq (by simp)

theorem MainLoop_loop_line (lib : GoLib) (table : String) (create : Bool) (typeMap : TypeMap)
    (onFirstLine : Bool) (out : String) (input line rest : List Char)
    (h : ReadBytes input = some (line, rest)) :
    MainLoop.loop lib table create typeMap onFirstLine out input =
      match lib.unmarshal (String.mk line) with
      | .error err => ⟨out, some (.ofError err)⟩
      | .ok object =>
        match (if onFirstLine then
            MainLoop.firstLine table create object (JsonObject.CreateTypeMap object) out
            else (out, none) : String × Option Panic) with
        | (out1, some p) => ⟨out1, some p⟩
        | (out1, none) =>
          match JsonObject.CreateValueStatement lib object
              (if onFirstLine then JsonObject.CreateTypeMap object else typeMap) with
          | .error p => ⟨out1, some p⟩
          | .ok (_, some err) => ⟨out1, some (.ofError err)⟩
          | .ok (sql, none) =>
            MainLoop.loop lib table create
              (if onFirstLine then JsonObject.CreateTypeMap object else typeMap) false
              (if rest = [] then println (out1 ++ sql) "" else println (out1 ++ sql) ",") rest := by
  rw [MainLoop.loop]
  split
  · rename_i heq
    rw [h] at heq
    exact absurd heq (by simp)
  · rename_i line2 rest2 heq
    rw [h] at heq
    simp only [Option.some.injEq, Prod.mk.injEq] at heq
    obtain ⟨hl, hr⟩ := heq
    subst hl hr
    cases onFirstLine <;> rfl

theorem ReadBytes_line (l rest : List Char) (h : '\n' ∉ l) :
    ReadBytes (l ++ '\n' :: rest) = some (l ++ ['\n'], rest) := by
  induction l with
  | nil => simp [ReadBytes]
  | cons c cs ih =>
    have hc : c ≠ '\n' := fun hc => h (by simp [hc])
    have hcs : '\n' ∉ cs := fun hcs => h (by simp [hcs])
    simp [ReadBytes, hc, ih hcs]

theorem unlines_cons_data (l : String) (ls : List String) :
    (unlines (l :: ls)).data = l.data ++ '\n' :: (unlines ls).data := by
  simp [unlines, String.data_append]

theorem unlines_data_eq_nil (ls : List String) : (unlines ls).data = [] ↔ ls = [] := by
  cases ls with
  | nil => simp [unlines]
  | cons l ls => simp [unlines_cons_data]

theorem mk_line (l : String) : String.mk (l.data ++ ['\n']) = l ++ "\n" := by
  apply String.ext
  simp [String.data_append]

theorem firstLine_eq (table : String) (create : Bool) (object : JsonObject) (out : String) :
    MainLoop.firstLine table create object (JsonObject.CreateTypeMap object) out
      = (out ++ unlines (headerLines table create object), none) := by
  cases create <;>
    simp [MainLoop.firstLine, TypeMap.CreateCreateStatement,
      JsonObject.CreateInsertStatementHeader, println, unlines, headerLines, String.append_assoc]

theorem loop_later_eq_emitTuples (lib : GoLib) (table : String) (create : Bool) (m : TypeMap)
    (recs : List (String × JsonObject)) (out : String)
    (h : ∀ lr ∈ recs, '\n' ∉ lr.1.data ∧ lib.unmarshal (lr.1 ++ "\n") = .ok lr.2) :
    MainLoop.loop lib table create m false out (unlines (recs.map Prod.fst)).data
      = emitTuples lib m out (recs.map Prod.snd) := by
  induction recs generalizing out with
  | nil => exact MainLoop_loop_eof lib table create m false out _ (by simp [unlines, ReadBytes])
  | cons lr recs ih =>
    obtain ⟨l, r⟩ := lr
    have hl := h (l, r) (by simp)
    have hrest : ∀ lr ∈ recs, '\n' ∉ lr.1.data ∧ lib.unmarshal (lr.1 ++ "\n") = .ok lr.2 :=
      fun lr hlr => h lr (by simp [hlr])
    rw [List.map_cons, unlines_cons_data,
      MainLoop_loop_line lib table create m false out _ _ _ (ReadBytes_line l.data _ hl.1),
      mk_line, hl.2]
    simp only [List.map_cons, emitTuples, Bool.false_eq_true, if_false]
    cases hren : JsonObject.CreateValueStatement lib r m with
    | error p => rfl
    | ok res =>
      obtain ⟨sql, err⟩ := res
      cases err with
      | some e => rfl
      | none =>
        simp only
        rw [ih _ hrest]
        cases recs with
        | nil => simp [unlines]
        | cons lr2 recs2 => simp [unlines_cons_data]

theorem MainLoop_eq_emitTuples (lib : GoLib) (table : String) (create : Bool)
    (l1 : String) (r1 : JsonObject) (later : List (String × JsonObject))
    (h1 : '\n' ∉ l1.data) (hd1 : lib.unmarshal (l1 ++ "\n") = .ok r1)
    (hl : ∀ lr ∈ later, '\n' ∉ lr.1.data ∧ lib.unmarshal (lr.1 ++ "\n") = .ok lr.2) :
    MainLoop lib table create (unlines (l1 :: later.map Prod.fst))
      = emitTuples lib (JsonObject.CreateTypeMap r1) (unlines (headerLines table create r1))
          (r1 :: later.map Prod.snd) := by
  unfold MainLoop
  rw [unlines_cons_data,
    MainLoop_loop_line lib table create _ true "" _ _ _ (ReadBytes_line l1.data _ h1),
    mk_line, hd1]
  simp only [if_true, firstLine_eq, emitTuples, String.empty_append]
  cases hren : JsonObject.CreateValueStatement lib r1 (JsonObject.CreateTypeMap r1) with
  | error p => rfl
  | ok res =>
    obtain ⟨sql, err⟩ := res
    cases err with
    | some e => rfl
    | none =>
      simp only
      rw [loop_later_eq_emitTuples lib table create _ later _ hl]
      cases later with
      | nil => simp [unlines]
      | cons lr2 recs2 => simp [unlines_cons_data]

theorem unlines_append (a b : List String) : unlines (a ++ b) = unlines a ++ unlines b := by
  induction a with
  | nil => simp [unlines]
  | cons l ls ih => simp [unlines, ih, String.append_assoc]

theorem tupleLines_cons (t : String) (ts : List String) :
    tupleLines (t :: ts) = (if ts.isEmpty then t else t ++ ",") :: tupleLines ts := by
  cases ts <;> simp [tupleLines]

theorem emitTuples_ok (lib : GoLib) (m : TypeMap) (rs : List JsonObject) (ts : List String)
    (out : String)
    (h : List.Forall₂ (fun r t => JsonObject.CreateValueStatement lib r m = .ok (t, none)) rs ts) :
    emitTuples lib m out rs = ⟨out ++ unlines (tupleLines ts ++ [";"]), none⟩ := by
  induction h generalizing out with
  | nil => simp [emitTuples, println, unlines, tupleLines, String.append_assoc]
  | @cons r t rs ts hrt hrest ih =>
    simp only [emitTuples, hrt]
    rw [ih, tupleLines_cons]
    have hlen := hrest.length_eq
    cases rs with
    | nil =>
      cases ts with
      | nil => simp [println, unlines, String.append_assoc]
      | cons _ _ => simp at hlen
    | cons _ _ =>
      cases ts with
      | nil => simp at hlen
      | cons _ _ => simp [println, unlines, String.append_assoc]

/-! ## The claims -/

/-- C1: on an input of one or more newline-terminated lines that each decode
to an object and render without error against the type map of the first
record, `MainLoop` returns normally having written exactly the CREATE TABLE
line of the first record's type map when `create` holds, the INSERT header
line of the first record, one tuple line per record in input order with a
comma after each but the last, and the line `;`. -/
theorem MainLoop_writes_statement (lib : GoLib) (table : String) (create : Bool)
    (first : Rendered) (more : List Rendered)
    (h : ∀ rec ∈ first :: more, '\n' ∉ rec.line.data
      ∧ lib.unmarshal (rec.line ++ "\n") = .ok rec.object
      ∧ JsonObject.CreateValueStatement lib rec.object (JsonObject.CreateTypeMap first.object)
          = .ok (rec.tuple, none)) :
    MainLoop lib table create (unlines ((first :: more).map Rendered.line))
      = ⟨unlines (headerLines table create first.object
          ++ tupleLines ((first :: more).map Rendered.tuple) ++ [";"]), none⟩ := by
  have hfirst := h first (by simp)
  have hlater : ∀ lr ∈ more.map (fun rec => (rec.line, rec.object)),
      '\n' ∉ lr.1.data ∧ lib.unmarshal (lr.1 ++ "\n") = .ok lr.2 := by
    intro lr hlr
    obtain ⟨rec, hrec, rfl⟩ := List.mem_map.1 hlr
    have := h rec (by simp [hrec])
    exact ⟨this.1, this.2.1⟩
  have hmain := MainLoop_eq_emitTuples lib table create first.line first.object
    (more.map (fun rec => (rec.line, rec.object))) hfirst.1 hfirst.2.1 hlater
  simp only [List.map_map] at hmain
  have hfst : (Prod.fst ∘ fun rec : Rendered => (rec.line, rec.object)) = Rendered.line := rfl
  have hsnd : (Prod.snd ∘ fun rec : Rendered => (rec.line, rec.object)) = Rendered.object := rfl
  rw [hfst, hsnd] at hmain
  rw [List.map_cons, hmain]
  have hall : List.Forall₂
      (fun r t => JsonObject.CreateValueStatement lib r (JsonObject.CreateTypeMap first.object)
        = .ok (t, none))
      ((first :: more).map Rendered.object) ((first :: more).map Rendered.tuple) := by
    rw [List.forall₂_map_left_iff, List.forall₂_map_right_iff, List.forall₂_same]
    intro rec hrec
    exact (h rec hrec).2.2
  rw [← List.map_cons Rendered.object, emitTuples_ok lib _ _ _ _ hall]
  simp [unlines_append, String.append_assoc]

/-- Witness of C1: the two scenarios of the specification, the single record
with `create` set and the two records without it. -/
theorem MainLoop_writes_statement_witness :
    MainLoop scenarioLib "mytable" true "\x7b\"baz\":\"qux\",\"foo\":1\x7d\n"
      = ⟨"CREATE TABLE IF NOT EXISTS mytable (baz VARCHAR, foo INTEGER);\nINSERT INTO mytable (baz, foo) VALUES\n('qux', 1)\n;\n", none⟩
    ∧ MainLoop scenarioLib "t" false "\x7b\"a\":1\x7d\n\x7b\"a\":2\x7d\n"
      = ⟨"INSERT INTO t (a) VALUES\n(1),\n(2)\n;\n", none⟩ :=
  ⟨MainLoop_writes_statement scenarioLib "mytable" true
      ⟨"\x7b\"baz\":\"qux\",\"foo\":1\x7d", recordBazFoo, "('qux', 1)"⟩ []
      (by
        intro rec hrec
        simp only [List.mem_singleton] at hrec
        subst hrec
        exact ⟨by decide, rfl, rfl⟩),
    MainLoop_writes_statement scenarioLib "t" false
      ⟨"\x7b\"a\":1\x7d", recordA (.num ⟨false, 1, 0⟩), "(1)"⟩
      [⟨"\x7b\"a\":2\x7d", recordA (.num ⟨false, 2, 0⟩), "(2)"⟩]
      (by
        intro rec hrec
        simp only [List.mem_cons, List.mem_singleton, List.not_mem_nil, or_false] at hrec
        rcases hrec with rfl | rfl <;> exact ⟨by decide, rfl, rfl⟩)⟩

/-- C2: `DefaultValueTypeToSQLType` is a total function that agrees with the
reference table `inferType` on every value: VARCHAR for text, INTEGER for a
number whose fractional part is zero and DOUBLE for any other number, BOOLEAN
for a boolean, ROW for a nested object, VARCHAR for an array and for null.
The numbers 42, -7 and 42.0 (as the 53-bit significand stores it) give
INTEGER, 42.5 and 3.14 give DOUBLE. -/
theorem DefaultValueTypeToSQLType_eq_inferType :
    (∀ value : JsonValue, DefaultValueTypeToSQLType value = inferType value)
    ∧ DefaultValueTypeToSQLType (.num ⟨false, 42, 0⟩) = "INTEGER"
    ∧ DefaultValueTypeToSQLType (.num ⟨true, 7, 0⟩) = "INTEGER"
    ∧ DefaultValueTypeToSQLType (.num ⟨false, 5910974510923776, -47⟩) = "INTEGER"
    ∧ DefaultValueTypeToSQLType (.num ⟨false, 85, -1⟩) = "DOUBLE"
    ∧ DefaultValueTypeToSQLType (.num ⟨false, 7070651414971679, -51⟩) = "DOUBLE" := by
  refine ⟨?_, by decide, by decide, by decide, by decide, by decide⟩
  intro value
  cases value with
  | num x =>
    unfold DefaultValueTypeToSQLType inferType
    by_cases h : (Float64.Modf x).2.isZero = true
    · simp [h, (Modf_frac_isZero_iff x).1 h]
    · have h2 : ¬ Int.fract x.toRat = 0 := fun hf => h ((Modf_frac_isZero_iff x).2 hf)
      simp [h, h2]
  | _ => rfl

/-- C3: the type map built from a record has exactly the field names of the
record as its keys, and binds each of them to the inferred type of the
value the record holds there.  The record binding `foo` to `bar` and `baz`
to 42 gives the map binding `foo` to VARCHAR and `baz` to INTEGER. -/
theorem CreateTypeMap_bindings :
    (∀ (r : JsonObject) (k : String),
      (k ∈ (JsonObject.CreateTypeMap r).keys ↔ k ∈ r.keys)
      ∧ (JsonObject.CreateTypeMap r).get? k = (r.get? k).map DefaultValueTypeToSQLType
      ∧ (k ∈ r.keys →
          (JsonObject.CreateTypeMap r).index "" k = DefaultValueTypeToSQLType (r.index .null k)))
    ∧ (JsonObject.CreateTypeMap recordFooBaz).entries.Perm
        [("foo", "VARCHAR"), ("baz", "INTEGER")] := by
  refine ⟨fun r k => ⟨CreateTypeMap_mem_keys r k, CreateTypeMap_get? r k,
    CreateTypeMap_index r k⟩, ?_⟩
  have h : (JsonObject.CreateTypeMap recordFooBaz).entries
      = [("foo", "VARCHAR"), ("baz", "INTEGER")] := by decide
  rw [h]

theorem exists_values_of_ok (f : String → Except Panic String) (ks : List String)
    (h : ∀ k ∈ ks, ∃ s, f k = .ok s) :
    ∃ vs, List.Forall₂ (fun k v => f k = .ok v) ks vs := by
  induction ks with
  | nil => exact ⟨[], List.Forall₂.nil⟩
  | cons a as ih =>
    obtain ⟨s, hs⟩ := h a (by simp)
    obtain ⟨vs, hvs⟩ := ih (fun k hk => h k (by simp [hk]))
    exact ⟨s :: vs, List.Forall₂.cons hs hvs⟩

theorem foldlM_values_error_of_mem (f : String → Except Panic String) (ks : List String)
    (init : List String) (k : String) (p : Panic) (hk : k ∈ ks) (hf : f k = .error p) :
    ∃ q, ks.foldlM (fun values key => (f key).map (fun v => values ++ [v])) init = .error q := by
  induction ks generalizing init with
  | nil => simp at hk
  | cons a as ih =>
    rw [List.foldlM_cons]
    cases hfa : f a with
    | error q => exact ⟨q, rfl⟩
    | ok v =>
      have hne : k ≠ a := fun h => by rw [h, hfa] at hf; simp at hf
      have hmem : k ∈ as := by
        rcases List.mem_cons.1 hk with h | h
        · exact absurd h hne
        · exact h
      exact ih (init ++ [v]) hmem

theorem foldlM_values_eq_mapM (f : String → Except Panic String) (ks : List String)
    (init : List String) :
    ks.foldlM (fun values key => (f key).map (fun v => values ++ [v])) init
      = (ks.mapM f).map (fun vs => init ++ vs) := by
  induction ks generalizing init with
  | nil => rw [List.mapM_nil]; simp [pure, Except.pure, Except.map]
  | cons a as ih =>
    rw [List.foldlM_cons, List.mapM_cons]
    cases hfa : f a with
    | error q => rfl
    | ok v =>
      have h1 := ih (init ++ [v])
      cases hm : as.mapM f with
      | error q =>
        rw [hm] at h1
        simpa [bind, Except.bind, Except.map] using h1
      | ok vs =>
        rw [hm] at h1
        simpa [bind, Except.bind, Except.map, pure, Except.pure] using h1

theorem CreateValueStatement_eq_mapM (lib : GoLib) (r : JsonObject) (m : TypeMap) :
    JsonObject.CreateValueStatement lib r m
      = ((JsonObject.SortedKeys r).mapM
          (fun k => TypeMap.ValueToSQLValue lib m k (r.index .null k))).map
          (fun vs => ("(" ++ ", ".intercalate vs ++ ")", none)) := by
  unfold JsonObject.CreateValueStatement
  rw [foldlM_values_eq_mapM (fun k => TypeMap.ValueToSQLValue lib m k (r.index .null k))]
  cases (JsonObject.SortedKeys r).mapM
      (fun k => TypeMap.ValueToSQLValue lib m k (r.index .null k)) with
  | error q => rfl
  | ok vs => simp [Except.map, stringsJoin]

/-- C4: when every field of the record renders without failure against the
type map, `CreateValueStatement` returns no error and the text `(`, the
rendered values of the fields taken in ascending order of the field names and
joined by `, `, then `)`; there is one value per field of the record, whatever
the keys of the type map are. -/
theorem CreateValueStatement_text (lib : GoLib) (r : JsonObject) (m : TypeMap)
    (h : ∀ k ∈ r.keys, ∃ s, TypeMap.ValueToSQLValue lib m k (r.index .null k) = .ok s) :
    ∃ ks values, ks.Perm r.keys ∧ ks.Sorted strLE
      ∧ List.Forall₂ (fun k v => TypeMap.ValueToSQLValue lib m k (r.index .null k) = .ok v)
          ks values
      ∧ JsonObject.CreateValueStatement lib r m
          = .ok ("(" ++ ", ".intercalate values ++ ")", none)
      ∧ values.length = r.keys.length := by
  have hs : ∀ k ∈ sortStrings r.keys,
      ∃ s, TypeMap.ValueToSQLValue lib m k (r.index .null k) = .ok s :=
    fun k hk => h k (mem_sortStrings.1 hk)
  obtain ⟨vs, hvs⟩ := exists_values_of_ok _ _ hs
  refine ⟨sortStrings r.keys, vs, sortStrings_perm _, sortStrings_sorted _, hvs, ?_, ?_⟩
  · unfold JsonObject.CreateValueStatement
    rw [JsonObject_SortedKeys_eq,
      foldlM_values_ok (fun k => TypeMap.ValueToSQLValue lib m k (r.index .null k)) _ vs [] hvs]
    simp [Except.map, stringsJoin]
  · rw [← hvs.length_eq, (sortStrings_perm r.keys).length_eq]

/-- Witness of C4: the record of the first scenario against the type map of
the test, which has none of its keys. -/
theorem CreateValueStatement_text_witness :
    ∃ ks values, ks.Perm recordBazFoo.keys ∧ ks.Sorted strLE
      ∧ List.Forall₂
          (fun k v => TypeMap.ValueToSQLValue scenarioLib testTypeMap k
            (recordBazFoo.index .null k) = .ok v) ks values
      ∧ JsonObject.CreateValueStatement scenarioLib recordBazFoo testTypeMap
          = .ok ("(" ++ ", ".intercalate values ++ ")", none)
      ∧ values.length = recordBazFoo.keys.length :=
  CreateValueStatement_text scenarioLib recordBazFoo testTypeMap (by
    intro k hk
    have hk2 : k = "baz" ∨ k = "foo" := by simpa [recordBazFoo, GoMap.keys] using hk
    rcases hk2 with rfl | rfl
    · exact ⟨_, rfl⟩
    · exact ⟨_, rfl⟩)

theorem replaceQuotes_eq_flatMap (cs : List Char) :
    replaceQuotes cs = cs.flatMap (fun c => if c = quote then [quote, quote] else [c]) := by
  induction cs with
  | nil => rfl
  | cons c cs ih =>
    by_cases h : c = quote <;> simp [replaceQuotes, h, ih, List.flatMap_cons]

/-- C5: under the tag VARCHAR a text value renders as a single quote, the
escaped text, and a single quote, where the escaped text is the text with
each single quote replaced by two and every other character kept. -/
theorem ValueToSQLValue_varchar (lib : GoLib) (m : TypeMap) (f s : String)
    (h : m.index "" f = "VARCHAR") :
    TypeMap.ValueToSQLValue lib m f (.str s) = .ok ("'" ++ EscapeSingleQuotes s ++ "'")
    ∧ (EscapeSingleQuotes s).data
        = s.data.flatMap (fun c => if c = quote then [quote, quote] else [c]) := by
  constructor
  · unfold TypeMap.ValueToSQLValue
    rw [if_pos h]
    rfl
  · exact replaceQuotes_eq_flatMap s.data

/-- Witness of C5: `hello` under the VARCHAR field of the test renders as
`'hello'`. -/
theorem ValueToSQLValue_varchar_witness :
    TypeMap.ValueToSQLValue scenarioLib testTypeMap "field1" (.str "hello") = .ok "'hello'" :=
  (ValueToSQLValue_varchar scenarioLib testTypeMap "field1" "hello" (by decide)).1

theorem CreateCreateStatement_CreateTypeMap (r : JsonObject) (table : String) :
    (TypeMap.CreateCreateStatement (JsonObject.CreateTypeMap r) table).1
      = "CREATE TABLE IF NOT EXISTS " ++ table ++ " ("
        ++ ", ".intercalate ((JsonObject.SortedKeys r).map
            (fun k => k ++ " " ++ DefaultValueTypeToSQLType (r.index .null k)))
        ++ ");" := by
  unfold TypeMap.CreateCreateStatement
  simp only [stringsJoin]
  rw [foldl_append_singleton
      (fun key => key ++ " " ++ (JsonObject.CreateTypeMap r).index "" key),
    CreateTypeMap_SortedKeys, List.nil_append]
  have hmap : (JsonObject.SortedKeys r).map
        (fun key => key ++ " " ++ (JsonObject.CreateTypeMap r).index "" key)
      = (JsonObject.SortedKeys r).map
        (fun k => k ++ " " ++ DefaultValueTypeToSQLType (r.index .null k)) := by
    apply List.map_congr_left
    intro k hk
    rw [JsonObject_SortedKeys_eq] at hk
    rw [CreateTypeMap_index r k (mem_sortStrings.1 hk)]
  rw [hmap]

/-- C6: the sorted keys of the type map built from a record are the sorted
keys of the record, an ascending list; the column declarations of the CREATE
TABLE statement, the column names of the INSERT header and the values of the
tuple are each produced from that one list, position by position. -/
theorem columns_aligned (lib : GoLib) (r : JsonObject) (table : String) :
    TypeMap.SortedKeys (JsonObject.CreateTypeMap r) = JsonObject.SortedKeys r
    ∧ (JsonObject.SortedKeys r).Sorted strLE
    ∧ (TypeMap.CreateCreateStatement (JsonObject.CreateTypeMap r) table).1
        = "CREATE TABLE IF NOT EXISTS " ++ table ++ " ("
          ++ ", ".intercalate ((JsonObject.SortedKeys r).map
              (fun k => k ++ " " ++ DefaultValueTypeToSQLType (r.index .null k)))
          ++ ");"
    ∧ (JsonObject.CreateInsertStatementHeader r table).1
        = "INSERT INTO " ++ table ++ " (" ++ ", ".intercalate (JsonObject.SortedKeys r)
          ++ ") VALUES"
    ∧ JsonObject.CreateValueStatement lib r (JsonObject.CreateTypeMap r)
        = ((JsonObject.SortedKeys r).mapM
            (fun k => TypeMap.ValueToSQLValue lib (JsonObject.CreateTypeMap r) k
              (r.index .null k))).map
            (fun vs => ("(" ++ ", ".intercalate vs ++ ")", none)) := by
  refine ⟨CreateTypeMap_SortedKeys r, ?_, CreateCreateStatement_CreateTypeMap r table, rfl,
    CreateValueStatement_eq_mapM lib r _⟩
  rw [JsonObject_SortedKeys_eq]
  exact sortStrings_sorted _

/-- C7: on an input of one or more newline-terminated lines that decode, the
run of `MainLoop` is the run that renders every record, the first and each
later one, against the type map of the first record: the map is built once
and the kinds of the values of a later record play no part. -/
theorem MainLoop_fixed_type_map (lib : GoLib) (table : String) (create : Bool)
    (l1 : String) (r1 : JsonObject) (later : List (String × JsonObject))
    (h1 : '\n' ∉ l1.data) (hd1 : lib.unmarshal (l1 ++ "\n") = .ok r1)
    (hl : ∀ lr ∈ later, '\n' ∉ lr.1.data ∧ lib.unmarshal (lr.1 ++ "\n") = .ok lr.2) :
    MainLoop lib table create (unlines (l1 :: later.map Prod.fst))
      = emitTuples lib (JsonObject.CreateTypeMap r1) (unlines (headerLines table create r1))
          (r1 :: later.map Prod.snd) :=
  MainLoop_eq_emitTuples lib table create l1 r1 later h1 hd1 hl

/-- Witness of C7: after a first record binding `a` to 1, the record binding
`a` to 2.5 is rendered as the integer 2. -/
theorem MainLoop_fixed_type_map_witness :
    MainLoop scenarioLib "t" false "\x7b\"a\":1\x7d\n\x7b\"a\":2.5\x7d\n"
      = ⟨"INSERT INTO t (a) VALUES\n(1),\n(2)\n;\n", none⟩ := by
  have h := MainLoop_fixed_type_map scenarioLib "t" false "\x7b\"a\":1\x7d"
    (recordA (.num ⟨false, 1, 0⟩)) [("\x7b\"a\":2.5\x7d", recordA (.num ⟨false, 5, -1⟩))]
    (by decide) rfl
    (by
      intro lr hlr
      simp only [List.mem_singleton] at hlr
      subst hlr
      exact ⟨by decide, rfl⟩)
  have hin : unlines ("\x7b\"a\":1\x7d"
      :: List.map Prod.fst [("\x7b\"a\":2.5\x7d", recordA (.num ⟨false, 5, -1⟩))])
      = "\x7b\"a\":1\x7d\n\x7b\"a\":2.5\x7d\n" := rfl
  rw [hin] at h
  rw [h]
  rfl

/-- C8, the code at the failing inputs: a record holding null, or an array,
gets the tag VARCHAR for that field, and rendering the record against its own
type map panics in the type assertion; the run on the line holding null ends
in that panic after the INSERT header line. -/
theorem own_type_map_panics :
    (∀ lib : GoLib, JsonObject.CreateValueStatement lib (recordA .null)
        (JsonObject.CreateTypeMap (recordA .null))
      = .error (.interfaceConversion "nil" "string"))
    ∧ (∀ lib : GoLib, JsonObject.CreateValueStatement lib (recordA (.arr []))
        (JsonObject.CreateTypeMap (recordA (.arr [])))
      = .error (.interfaceConversion "[]interface \x7b\x7d" "string"))
    ∧ MainLoop scenarioLib "t" false "\x7b\"a\":null\x7d\n"
      = ⟨"INSERT INTO t (a) VALUES\n", some (.interfaceConversion "nil" "string")⟩ :=
  ⟨fun _ => rfl, fun _ => rfl,
    MainLoop_eq_emitTuples scenarioLib "t" false "\x7b\"a\":null\x7d" (recordA .null) []
      (by decide) rfl (by simp)⟩

theorem assertString_error (v : JsonValue) (h : ∀ s, v ≠ .str s) :
    assertString v = .error (.interfaceConversion v.typeName "string") := by
  cases v with
  | str s => exact absurd rfl (h s)
  | _ => rfl

theorem assertFloat64_error (v : JsonValue) (h : ∀ x, v ≠ .num x) :
    assertFloat64 v = .error (.interfaceConversion v.typeName "float64") := by
  cases v with
  | num x => exact absurd rfl (h x)
  | _ => rfl

theorem loop_panics_of_render_error (lib : GoLib) (table : String) (create : Bool)
    (m : TypeMap) (flag : Bool) (out : String) (input line rest : List Char) (r : JsonObject)
    (p : Panic) (hread : ReadBytes input = some (line, rest))
    (hdec : lib.unmarshal (String.mk line) = .ok r)
    (hren : JsonObject.CreateValueStatement lib r
      (if flag then JsonObject.CreateTypeMap r else m) = .error p) :
    (MainLoop.loop lib table create m flag out input).panic = some p := by
  rw [MainLoop_loop_line lib table create m flag out input line rest hread, hdec]
  cases flag
  · simp only [Bool.false_eq_true, if_false] at hren ⊢
    rw [hren]
  · simp only [if_true, firstLine_eq] at hren ⊢
    rw [hren]

/-- C9: under the tag VARCHAR a value that is not text, and under the tag
INTEGER a value that is not a number, make `ValueToSQLValue` panic in its
type assertion; a panic on a field of a record makes `CreateValueStatement`
panic, and a panic of `CreateValueStatement` on a line ends the run of the
loop of `MainLoop` with that panic. -/
theorem type_assertion_panics (lib : GoLib) (m : TypeMap) (f : String) (v : JsonValue) :
    (m.index "" f = "VARCHAR" → (∀ s, v ≠ .str s) →
      TypeMap.ValueToSQLValue lib m f v = .error (.interfaceConversion v.typeName "string"))
    ∧ (m.index "" f = "INTEGER" → (∀ x, v ≠ .num x) →
      TypeMap.ValueToSQLValue lib m f v = .error (.interfaceConversion v.typeName "float64"))
    ∧ (∀ (r : JsonObject) (p : Panic), f ∈ r.keys →
        TypeMap.ValueToSQLValue lib m f (r.index .null f) = .error p →
        ∃ q, JsonObject.CreateValueStatement lib r m = .error q)
    ∧ (∀ (table : String) (create flag : Bool) (out : String) (input line rest : List Char)
        (r : JsonObject) (p : Panic), ReadBytes input = some (line, rest) →
        lib.unmarshal (String.mk line) = .ok r →
        JsonObject.CreateValueStatement lib r
          (if flag then JsonObject.CreateTypeMap r else m) = .error p →
        (MainLoop.loop lib table create m flag out input).panic = some p) := by
  refine ⟨?_, ?_, ?_, ?_⟩
  · intro htag hv
    unfold TypeMap.ValueToSQLValue
    rw [if_pos htag, assertString_error v hv]
    rfl
  · intro htag hv
    unfold TypeMap.ValueToSQLValue
    rw [if_neg (by rw [htag]; decide), if_neg (by rw [htag]; decide), if_pos htag,
      assertFloat64_error v hv]
    rfl
  · intro r p hf hp
    unfold JsonObject.CreateValueStatement
    obtain ⟨q, hq⟩ := foldlM_values_error_of_mem
      (fun k => TypeMap.ValueToSQLValue lib m k (r.index .null k)) (JsonObject.SortedKeys r) []
      f p (by rw [JsonObject_SortedKeys_eq]; exact mem_sortStrings.2 hf) hp
    exact ⟨q, by rw [hq]; rfl⟩
  · intro table create flag out input line rest r p hread hdec hren
    exact loop_panics_of_render_error lib table create m flag out input line rest r p
      hread hdec hren

/-- Witness of C9: text under the INTEGER field of the test and a number under
its VARCHAR field panic, and the run on a first record binding `a` to 1 and a
second binding `a` to the text `x` ends in the panic after the first tuple. -/
theorem type_assertion_panics_witness :
    TypeMap.ValueToSQLValue scenarioLib testTypeMap "field3" (.str "x")
      = .error (.interfaceConversion "string" "float64")
    ∧ TypeMap.ValueToSQLValue scenarioLib testTypeMap "field1" (.num ⟨false, 1, 0⟩)
      = .error (.interfaceConversion "float64" "string")
    ∧ MainLoop scenarioLib "t" false "\x7b\"a\":1\x7d\n\x7b\"a\":\"x\"\x7d\n"
      = ⟨"INSERT INTO t (a) VALUES\n(1),\n", some (.interfaceConversion "string" "float64")⟩ := by
  refine ⟨(type_assertion_panics scenarioLib testTypeMap "field3" (.str "x")).2.1 (by decide)
      (by intro x hx; cases hx),
    (type_assertion_panics scenarioLib testTypeMap "field1" (.num ⟨false, 1, 0⟩)).1 (by decide)
      (by intro s hs; cases hs), ?_⟩
  have h := MainLoop_eq_emitTuples scenarioLib "t" false "\x7b\"a\":1\x7d"
    (recordA (.num ⟨false, 1, 0⟩)) [("\x7b\"a\":\"x\"\x7d", recordA (.str "x"))]
    (by decide) rfl
    (by
      intro lr hlr
      simp only [List.mem_singleton] at hlr
      subst hlr
      exact ⟨by decide, rfl⟩)
  have hin : unlines ("\x7b\"a\":1\x7d"
      :: List.map Prod.fst [("\x7b\"a\":\"x\"\x7d", recordA (.str "x"))])
      = "\x7b\"a\":1\x7d\n\x7b\"a\":\"x\"\x7d\n" := rfl
  rw [hin] at h
  rw [h]
  rfl

/-- C10 as stated fails: under the tag DOUBLE, and under the tag BOOLEAN, a
text value is rendered, as the text `fmt` writes for an operand its verb does
not accept, and nothing panics. -/
theorem mismatch_rendered_counterexample :
    testTypeMap.index "" "field2" = "DOUBLE"
    ∧ TypeMap.ValueToSQLValue scenarioLib testTypeMap "field2" (.str "hello")
      = .ok "%!f(string=hello)"
    ∧ testTypeMap.index "" "field4" = "BOOLEAN"
    ∧ TypeMap.ValueToSQLValue scenarioLib testTypeMap "field4" (.str "hello")
      = .ok "%!t(string=hello)" :=
  ⟨by decide, rfl, by decide, rfl⟩

/-- C10 amended: rendering a field panics exactly when its tag is VARCHAR and
the value is not text, or its tag is INTEGER and the value is not a number;
under every other tag, DOUBLE and BOOLEAN among them, every value is
rendered. -/
theorem ValueToSQLValue_panics_iff (lib : GoLib) (m : TypeMap) (f : String) (v : JsonValue) :
    (∃ p, TypeMap.ValueToSQLValue lib m f v = .error p)
      ↔ (m.index "" f = "VARCHAR" ∧ ∀ s, v ≠ .str s)
        ∨ (m.index "" f = "INTEGER" ∧ ∀ x, v ≠ .num x) := by
  unfold TypeMap.ValueToSQLValue
  by_cases h1 : m.index "" f = "VARCHAR"
  · rw [if_pos h1]
    cases v <;> simp [assertString, Except.map, h1]
  · rw [if_neg h1]
    by_cases h2 : m.index "" f = "DOUBLE"
    · rw [if_pos h2]
      have hne : ¬ m.index "" f = "INTEGER" := by rw [h2]; decide
      simp [h1, hne]
    · rw [if_neg h2]
      by_cases h3 : m.index "" f = "INTEGER"
      · rw [if_pos h3]
        cases v <;> simp [assertFloat64, Except.map, h1, h3]
      · rw [if_neg h3]
        by_cases h4 : m.index "" f = "BOOLEAN"
        · rw [if_pos h4]; simp [h1, h3]
        · rw [if_neg h4]; simp [h1, h3]

theorem sortStrings_nodup {l : List String} (h : l.Nodup) : (sortStrings l).Nodup :=
  (sortStrings_perm l).nodup_iff.2 h

theorem sortStrings_count {l : List String} (h : l.Nodup) (k : String) :
    (sortStrings l).count k = if k ∈ l then 1 else 0 := by
  rw [(sortStrings_perm l).count_eq]
  by_cases hk : k ∈ l
  · rw [if_pos hk]; exact List.count_eq_one_of_mem h hk
  · rw [if_neg hk]; exact List.count_eq_zero_of_not_mem hk

theorem CreateCreateStatement_eq (m : TypeMap) (t : String) :
    TypeMap.CreateCreateStatement m t
      = ("CREATE TABLE IF NOT EXISTS " ++ t ++ " ("
          ++ ", ".intercalate ((sortStrings m.keys).map (fun k => k ++ " " ++ m.index "" k))
          ++ ");", none) := by
  unfold TypeMap.CreateCreateStatement
  simp only [stringsJoin]
  rw [foldl_append_singleton (fun key => key ++ " " ++ m.index "" key), TypeMap_SortedKeys_eq,
    List.nil_append]

/-- C11: `CreateCreateStatement` returns no error and the text
`CREATE TABLE IF NOT EXISTS `, the table name, ` (`, the declarations
`key tag` of the keys of the map in ascending order joined by `, `, and `);`.
The five-field map of the test gives the statement the test expects. -/
theorem CreateCreateStatement_text :
    (∀ (m : TypeMap) (t : String), ∃ ks : List String, ks.Perm m.keys ∧ ks.Sorted strLE
      ∧ TypeMap.CreateCreateStatement m t
        = ("CREATE TABLE IF NOT EXISTS " ++ t ++ " ("
            ++ ", ".intercalate (ks.map (fun k => k ++ " " ++ m.index "" k)) ++ ");", none))
    ∧ TypeMap.CreateCreateStatement testTypeMapCreate "mytable"
      = ("CREATE TABLE IF NOT EXISTS mytable (field1 VARCHAR, field2 DOUBLE, field3 INTEGER, field4 BOOLEAN, field5 UNKNOWN);", none) :=
  ⟨fun m t => ⟨sortStrings m.keys, sortStrings_perm _, sortStrings_sorted _,
    CreateCreateStatement_eq m t⟩, by decide⟩

/-- C12: `CreateInsertStatementHeader` returns no error and the text
`INSERT INTO `, the table name, ` (`, the field names of the record in
ascending order joined by `, `, and `) VALUES`; two records with the same
field names get the same header, whatever values they hold. -/
theorem CreateInsertStatementHeader_text (r : JsonObject) (t : String) :
    (∃ ks : List String, ks.Perm r.keys ∧ ks.Sorted strLE
      ∧ JsonObject.CreateInsertStatementHeader r t
        = ("INSERT INTO " ++ t ++ " (" ++ ", ".intercalate ks ++ ") VALUES", none))
    ∧ ∀ r2 : JsonObject, (∀ k, k ∈ r2.keys ↔ k ∈ r.keys) →
        JsonObject.CreateInsertStatementHeader r2 t
          = JsonObject.CreateInsertStatementHeader r t := by
  constructor
  · refine ⟨sortStrings r.keys, sortStrings_perm _, sortStrings_sorted _, ?_⟩
    unfold JsonObject.CreateInsertStatementHeader
    rw [JsonObject_SortedKeys_eq]
    rfl
  · intro r2 hkeys
    unfold JsonObject.CreateInsertStatementHeader
    have hperm : r2.keys.Perm r.keys := (List.perm_ext_iff_of_nodup r2.nodup r.nodup).2 hkeys
    rw [JsonObject_SortedKeys_eq, JsonObject_SortedKeys_eq, sortStrings_eq_of_perm hperm]

/-- C13: for a `JsonObject` and for a `TypeMap`, `SortedKeys` is a
rearrangement of the keys of the map, so it holds each key exactly once and
nothing else, and it is ascending; for the empty map it is the empty list.
The record binding `foo` and `baz` gives `baz`, `foo`. -/
theorem SortedKeys_ascending_keys :
    (∀ o : JsonObject, (JsonObject.SortedKeys o).Perm o.keys
      ∧ (∀ k, (JsonObject.SortedKeys o).count k = if k ∈ o.keys then 1 else 0)
      ∧ (JsonObject.SortedKeys o).Sorted strLE ∧ (JsonObject.SortedKeys o).Nodup)
    ∧ (∀ o : TypeMap, (TypeMap.SortedKeys o).Perm o.keys
      ∧ (∀ k, (TypeMap.SortedKeys o).count k = if k ∈ o.keys then 1 else 0)
      ∧ (TypeMap.SortedKeys o).Sorted strLE ∧ (TypeMap.SortedKeys o).Nodup)
    ∧ JsonObject.SortedKeys GoMap.empty = []
    ∧ TypeMap.SortedKeys GoMap.empty = []
    ∧ JsonObject.SortedKeys recordFooBazText = ["baz", "foo"]
    ∧ TypeMap.SortedKeys testTypeMapCreate
      = ["field1", "field2", "field3", "field4", "field5"] := by
  refine ⟨fun o => ?_, fun o => ?_, by decide, by decide, by decide, by decide⟩
  · rw [JsonObject_SortedKeys_eq]
    exact ⟨sortStrings_perm _, sortStrings_count o.nodup, sortStrings_sorted _,
      sortStrings_nodup o.nodup⟩
  · rw [TypeMap_SortedKeys_eq]
    exact ⟨sortStrings_perm _, sortStrings_count o.nodup, sortStrings_sorted _,
      sortStrings_nodup o.nodup⟩

/-- C19: under a tag that is none of VARCHAR, DOUBLE, INTEGER and BOOLEAN,
the empty tag of an absent field among them, a text value renders without
failure as a single quote, the text as it is, and a single quote. -/
theorem ValueToSQLValue_fallback (lib : GoLib) (m : TypeMap) (f s : String)
    (h1 : m.index "" f ≠ "VARCHAR") (h2 : m.index "" f ≠ "DOUBLE")
    (h3 : m.index "" f ≠ "INTEGER") (h4 : m.index "" f ≠ "BOOLEAN") :
    TypeMap.ValueToSQLValue lib m f (.str s) = .ok ("'" ++ s ++ "'") := by
  unfold TypeMap.ValueToSQLValue
  rw [if_neg h1, if_neg h2, if_neg h3, if_neg h4]
  rfl

/-- Witness of C19: the text `unknown` under the tag UNKNOWN of the test, and
the text `it's` under a field the map does not hold. -/
theorem ValueToSQLValue_fallback_witness :
    TypeMap.ValueToSQLValue scenarioLib testTypeMap "field5" (.str "unknown") = .ok "'unknown'"
    ∧ TypeMap.ValueToSQLValue scenarioLib testTypeMap "field9" (.str "it's") = .ok "'it's'" :=
  ⟨ValueToSQLValue_fallback scenarioLib testTypeMap "field5" "unknown"
      (by decide) (by decide) (by decide) (by decide),
    ValueToSQLValue_fallback scenarioLib testTypeMap "field9" "it's"
      (by decide) (by decide) (by decide) (by decide)⟩

/-! ## Escaping -/

theorem replaceQuotes_of_not_mem (cs : List Char) (h : quote ∉ cs) : replaceQuotes cs = cs := by
  induction cs with
  | nil => rfl
  | cons c cs ih =>
    have hc : c ≠ quote := fun hc => h (by simp [hc])
    have hcs : quote ∉ cs := fun hcs => h (by simp [hcs])
    simp [replaceQuotes, hc, ih hcs]

theorem replaceQuotes_length (cs : List Char) :
    (replaceQuotes cs).length = cs.length + cs.count quote := by
  induction cs with
  | nil => rfl
  | cons c cs ih =>
    by_cases hc : c = quote
    · subst hc
      simp [replaceQuotes, ih]
      omega
    · have hq : ¬ quote = c := fun h => hc h.symm
      simp [replaceQuotes, hc, ih, List.count_cons, hq]
      omega

theorem utf8Len_replaceQuotes (cs : List Char) :
    String.utf8Len (replaceQuotes cs) = String.utf8Len cs + cs.count quote := by
  induction cs with
  | nil => rfl
  | cons c cs ih =>
    by_cases hc : c = quote
    · subst hc
      have hq : quote.utf8Size = 1 := by decide
      simp only [replaceQuotes, if_true, String.utf8Len_cons, ih, hq, List.count_cons_self]
      omega
    · have hq : (c == quote) = false := by simpa using hc
      simp only [replaceQuotes, if_neg hc, String.utf8Len_cons, ih, List.count_cons, hq]
      simp
      omega

theorem mem_replaceQuotes (cs : List Char) : quote ∈ replaceQuotes cs ↔ quote ∈ cs := by
  induction cs with
  | nil => simp [replaceQuotes]
  | cons c cs ih =>
    by_cases hc : c = quote
    · subst hc; simp [replaceQuotes]
    · have hq : ¬ quote = c := fun h => hc h.symm
      simp [replaceQuotes, hc, ih, hq]

theorem collapseQuotes_replaceQuotes (cs : List Char) :
    collapseQuotes (replaceQuotes cs) = cs := by
  induction cs with
  | nil => rfl
  | cons c cs ih =>
    by_cases hc : c = quote
    · subst hc
      simp [replaceQuotes, collapseQuotes, ih]
    · simp only [replaceQuotes, if_neg hc]
      cases hR : replaceQuotes cs with
      | nil =>
        rw [hR] at ih
        simp [collapseQuotes, ← ih]
      | cons d rest =>
        rw [hR] at ih
        simp [collapseQuotes, hc, ih]

/-- C14: `EscapeSingleQuotes` replaces each single quote of the text by two
single quotes and keeps every other character, in order; a text without a
single quote comes back unchanged, and the result is longer than the text
by the number of its single quotes, in characters and in bytes. -/
theorem EscapeSingleQuotes_doubles :
    (∀ s : String,
      (EscapeSingleQuotes s).data
        = s.data.flatMap (fun c => if c = quote then [quote, quote] else [c])
      ∧ (quote ∉ s.data → EscapeSingleQuotes s = s)
      ∧ (EscapeSingleQuotes s).length = s.length + s.data.count quote
      ∧ (EscapeSingleQuotes s).utf8ByteSize = s.utf8ByteSize + s.data.count quote)
    ∧ EscapeSingleQuotes "hello world" = "hello world"
    ∧ EscapeSingleQuotes "it's raining" = "it''s raining"
    ∧ EscapeSingleQuotes "I said 'hello'" = "I said ''hello''" := by
  refine ⟨fun s => ⟨replaceQuotes_eq_flatMap s.data, ?_, replaceQuotes_length s.data,
    ?_⟩, by decide, by decide, by decide⟩
  · intro h
    apply String.ext
    exact replaceQuotes_of_not_mem s.data h
  · have hb : ∀ t : String, t.utf8ByteSize = String.utf8Len t.data := fun t => by
      cases t; simp [String.utf8ByteSize]
    rw [hb, hb]
    exact utf8Len_replaceQuotes s.data

/-- C15: for a text without two adjacent single quotes, collapsing each pair
of single quotes of the escaped text, from the left, gives the text back. -/
theorem unescape_EscapeSingleQuotes (s : String) (_h : ¬ [quote, quote] <:+: s.data) :
    unescapeQuotes (EscapeSingleQuotes s) = s := by
  apply String.ext
  exact collapseQuotes_replaceQuotes s.data

/-- Witness of C15: `it's raining` comes back from `it''s raining`. -/
theorem unescape_EscapeSingleQuotes_witness :
    unescapeQuotes (EscapeSingleQuotes "it's raining") = "it's raining" :=
  unescape_EscapeSingleQuotes "it's raining" (by decide)

/-- C16: escaping an escaped text once more leaves it unchanged exactly when
the text holds no single quote. -/
theorem EscapeSingleQuotes_idempotent_iff (s : String) :
    EscapeSingleQuotes (EscapeSingleQuotes s) = EscapeSingleQuotes s ↔ quote ∉ s.data := by
  constructor
  · intro h hmem
    have hlen := congrArg String.length h
    have hl2 : (EscapeSingleQuotes (EscapeSingleQuotes s)).length
        = (EscapeSingleQuotes s).length + (EscapeSingleQuotes s).data.count quote :=
      replaceQuotes_length (EscapeSingleQuotes s).data
    have hpos : 0 < (EscapeSingleQuotes s).data.count quote :=
      List.count_pos_iff.2 ((mem_replaceQuotes s.data).2 hmem)
    omega
  · intro h
    have hs : EscapeSingleQuotes s = s := String.ext (replaceQuotes_of_not_mem s.data h)
    rw [hs, hs]

/-! ## Number formats -/

theorem toDigitsCore_isDigit (fuel n : Nat) (ds : List Char)
    (h : ∀ c ∈ ds, c.isDigit = true) :
    ∀ c ∈ Nat.toDigitsCore 10 fuel n ds, c.isDigit = true := by
  induction fuel generalizing n ds with
  | zero => simpa [Nat.toDigitsCore] using h
  | succ fuel ih =>
    have hd : (Nat.digitChar (n % 10)).isDigit = true := by
      have hall : ∀ d : Fin 10, (Nat.digitChar d.val).isDigit = true := by decide
      exact hall ⟨n % 10, Nat.mod_lt _ (by decide)⟩
    have hcons : ∀ c ∈ Nat.digitChar (n % 10) :: ds, c.isDigit = true := by
      intro c hc
      rcases List.mem_cons.1 hc with rfl | hc
      · exact hd
      · exact h c hc
    unfold Nat.toDigitsCore
    by_cases hz : n / 10 = 0
    · simpa [hz] using hcons
    · simp only [hz, if_false]
      exact ih (n / 10) _ hcons

theorem repr_isDigit (n : Nat) : ∀ c ∈ (Nat.repr n).data, c.isDigit = true :=
  toDigitsCore_isDigit (n + 1) n [] (by simp)

theorem truncNat_eq_floor (x : Float64) :
    (x.truncNat : ℤ) = ⌊(x.mant : ℚ) * (2 : ℚ) ^ x.exp⌋ := by
  unfold Float64.truncNat
  by_cases h : 0 ≤ x.exp
  · rw [if_pos h]
    obtain ⟨n, hn⟩ := Int.eq_ofNat_of_zero_le h
    rw [hn]
    have hcast : (x.mant : ℚ) * (2 : ℚ) ^ (n : ℤ) = ((x.mant * 2 ^ n : ℕ) : ℚ) := by
      push_cast
      rw [zpow_natCast]
    rw [hcast, Int.floor_natCast]
    simp
  · rw [if_neg h]
    have hk : x.exp = -(((-x.exp).toNat : ℕ) : ℤ) := by
      rw [Int.toNat_of_nonneg (by omega)]; ring
    have hpow : (2 : ℚ) ^ x.exp = ((2 : ℚ) ^ (-x.exp).toNat)⁻¹ := by
      conv_lhs => rw [hk]
      rw [zpow_neg, zpow_natCast]
    have hdiv : (x.mant : ℚ) * ((2 : ℚ) ^ (-x.exp).toNat)⁻¹
        = ((x.mant : ℤ) : ℚ) / ((2 ^ (-x.exp).toNat : ℕ) : ℚ) := by
      push_cast
      rw [div_eq_mul_inv]
    rw [hpow, hdiv, Rat.floor_intCast_div_natCast]
    push_cast
    rfl

theorem toRat_eq (x : Float64) :
    x.toRat = if x.neg then -((x.mant : ℚ) * (2 : ℚ) ^ x.exp) else (x.mant : ℚ) * (2 : ℚ) ^ x.exp := by
  unfold Float64.toRat
  cases x.neg <;> simp

theorem magnitude_nonneg (x : Float64) : 0 ≤ (x.mant : ℚ) * (2 : ℚ) ^ x.exp := by
  positivity

theorem truncTowardZero_toRat (x : Float64) :
    truncTowardZero x.toRat = if x.neg then -(x.truncNat : ℤ) else (x.truncNat : ℤ) := by
  rw [toRat_eq, truncNat_eq_floor]
  have ha := magnitude_nonneg x
  unfold truncTowardZero
  cases x.neg
  · simp only [Bool.false_eq_true, if_false, if_pos ha]
  · simp only [if_true]
    by_cases h0 : (x.mant : ℚ) * (2 : ℚ) ^ x.exp = 0
    · rw [h0]; simp
    · have hpos : 0 < (x.mant : ℚ) * (2 : ℚ) ^ x.exp := lt_of_le_of_ne ha (Ne.symm h0)
      rw [if_neg (by linarith), Int.ceil_neg]

theorem truncTowardZero_range (q : ℚ) (hlo : -(2 : ℚ) ^ 63 ≤ q) (hhi : q < (2 : ℚ) ^ 63) :
    -(2 : ℤ) ^ 63 ≤ truncTowardZero q ∧ truncTowardZero q < (2 : ℤ) ^ 63 := by
  unfold truncTowardZero
  by_cases h : 0 ≤ q
  · rw [if_pos h]
    constructor
    · have : (0 : ℤ) ≤ ⌊q⌋ := Int.floor_nonneg.2 h
      have h2 : -(2 : ℤ) ^ 63 ≤ 0 := by norm_num
      linarith
    · have h1 : ((⌊q⌋ : ℤ) : ℚ) < (2 : ℚ) ^ 63 := lt_of_le_of_lt (Int.floor_le q) hhi
      exact_mod_cast h1
  · rw [if_neg h]
    constructor
    · have h1 : -(2 : ℚ) ^ 63 ≤ ((⌈q⌉ : ℤ) : ℚ) := le_trans hlo (Int.le_ceil q)
      exact_mod_cast h1
    · have h1 : ⌈q⌉ ≤ 0 := Int.ceil_le.2 (by push_cast; linarith)
      have h2 : (0 : ℤ) < (2 : ℤ) ^ 63 := by norm_num
      linarith

theorem toInt_eq_truncTowardZero (x : Float64) (hlo : -(2 : ℚ) ^ 63 ≤ x.toRat)
    (hhi : x.toRat < (2 : ℚ) ^ 63) : x.toInt = truncTowardZero x.toRat := by
  have hr := truncTowardZero_range x.toRat hlo hhi
  rw [truncTowardZero_toRat] at hr ⊢
  unfold Float64.toInt
  simp only
  rw [if_pos hr]

/-- C17: under the tag INTEGER a number within the range of a 64-bit signed
integer renders as the decimal text of the number truncated toward zero: a
minus sign when the truncation is negative, then the decimal digits of its
magnitude, with no decimal point. -/
theorem ValueToSQLValue_integer (lib : GoLib) (m : TypeMap) (f : String) (x : Float64)
    (h : m.index "" f = "INTEGER") (hlo : -(2 : ℚ) ^ 63 ≤ x.toRat)
    (hhi : x.toRat < (2 : ℚ) ^ 63) :
    TypeMap.ValueToSQLValue lib m f (.num x)
      = .ok ((if truncTowardZero x.toRat < 0 then "-" else "")
          ++ Nat.repr (truncTowardZero x.toRat).natAbs)
    ∧ ∀ c ∈ (Nat.repr (truncTowardZero x.toRat).natAbs).data, c.isDigit = true := by
  refine ⟨?_, repr_isDigit _⟩
  unfold TypeMap.ValueToSQLValue
  rw [if_neg (by rw [h]; decide), if_neg (by rw [h]; decide), if_pos h]
  simp only [assertFloat64, Except.map, fmtDecimal]
  rw [toInt_eq_truncTowardZero x hlo hhi]
  by_cases hneg : truncTowardZero x.toRat < 0
  · simp [hneg]
  · simp [hneg]

/-- Witness of C17: under the INTEGER field of the test, 42.0 and 42.9 render
as `42` and -2.7 as `-2`. -/
theorem ValueToSQLValue_integer_witness :
    (TypeMap.ValueToSQLValue scenarioLib testTypeMap "field3" (.num ⟨false, 21, 1⟩)
      = .ok ((if truncTowardZero (Float64.toRat ⟨false, 21, 1⟩) < 0 then "-" else "")
          ++ Nat.repr (truncTowardZero (Float64.toRat ⟨false, 21, 1⟩)).natAbs)
      ∧ ∀ c ∈ (Nat.repr (truncTowardZero (Float64.toRat ⟨false, 21, 1⟩)).natAbs).data,
          c.isDigit = true)
    ∧ TypeMap.ValueToSQLValue scenarioLib testTypeMap "field3" (.num ⟨false, 21, 1⟩) = .ok "42"
    ∧ TypeMap.ValueToSQLValue scenarioLib testTypeMap "field3"
        (.num ⟨false, 6037638250443571, -47⟩) = .ok "42"
    ∧ TypeMap.ValueToSQLValue scenarioLib testTypeMap "field3"
        (.num ⟨true, 3039929748475085, -50⟩) = .ok "-2" :=
  ⟨ValueToSQLValue_integer scenarioLib testTypeMap "field3" ⟨false, 21, 1⟩ (by decide)
      (by norm_num [Float64.toRat]) (by norm_num [Float64.toRat]),
    rfl, rfl, rfl⟩

theorem abs_toRat (x : Float64) : |x.toRat| = (x.mant : ℚ) * (2 : ℚ) ^ x.exp := by
  rw [toRat_eq]
  have ha := magnitude_nonneg x
  cases x.neg
  · simp only [Bool.false_eq_true, if_false]
    exact abs_of_nonneg ha
  · simp only [if_true]
    rw [abs_neg]
    exact abs_of_nonneg ha

theorem round_close (d q r : ℕ) (hd : 0 < d) (hr : r < d) :
    |(((if d < 2 * r ∨ (2 * r = d ∧ q % 2 = 1) then q + 1 else q : ℕ) : ℚ))
        - ((d * q + r : ℕ) : ℚ) / (d : ℚ)| ≤ 1 / 2 := by
  have hdpos : (0 : ℚ) < (d : ℚ) := by exact_mod_cast hd
  have hT : ((d * q + r : ℕ) : ℚ) / (d : ℚ) = (q : ℚ) + (r : ℚ) / (d : ℚ) := by
    push_cast
    field_simp
    ring
  rw [hT]
  have hr0 : (0 : ℚ) ≤ (r : ℚ) / (d : ℚ) := by positivity
  have hr1 : (r : ℚ) / (d : ℚ) < 1 := by
    rw [div_lt_one hdpos]
    exact_mod_cast hr
  split
  · rename_i hup
    have hge : d ≤ 2 * r := by
      rcases hup with hlt | ⟨heq, _⟩
      · exact Nat.le_of_lt hlt
      · exact Nat.le_of_eq heq.symm
    have hhalf : (1 : ℚ) / 2 ≤ (r : ℚ) / (d : ℚ) := by
      rw [le_div_iff₀ hdpos]
      have : (d : ℚ) ≤ 2 * (r : ℚ) := by exact_mod_cast hge
      linarith
    rw [abs_le]
    push_cast
    constructor <;> linarith
  · rename_i hdown
    have hle : 2 * r ≤ d := by
      by_contra hc
      exact hdown (Or.inl (Nat.lt_of_not_le hc))
    have hhalf : (r : ℚ) / (d : ℚ) ≤ (1 : ℚ) / 2 := by
      rw [div_le_iff₀ hdpos]
      have : 2 * (r : ℚ) ≤ (d : ℚ) := by exact_mod_cast hle
      linarith
    rw [abs_le]
    constructor <;> linarith

theorem scaled6_close (x : Float64) :
    |(x.scaled6 : ℚ) - |x.toRat| * 10 ^ 6| ≤ 1 / 2 := by
  rw [abs_toRat]
  unfold Float64.scaled6
  by_cases h : 0 ≤ x.exp
  · rw [if_pos h]
    obtain ⟨n, hn⟩ := Int.eq_ofNat_of_zero_le h
    have ht : x.exp.toNat = n := by rw [hn]; rfl
    rw [ht, hn, zpow_natCast]
    have h0 : ((x.mant * 2 ^ n * 10 ^ 6 : ℕ) : ℚ) - (x.mant : ℚ) * 2 ^ n * 10 ^ 6 = 0 := by
      push_cast
      ring
    rw [h0, abs_zero]
    norm_num
  · rw [if_neg h]
    have hk : x.exp = -(((-x.exp).toNat : ℕ) : ℤ) := by
      rw [Int.toNat_of_nonneg (by omega)]; ring
    have hpow : (2 : ℚ) ^ x.exp = ((2 : ℚ) ^ (-x.exp).toNat)⁻¹ := by
      conv_lhs => rw [hk]
      rw [zpow_neg, zpow_natCast]
    rw [hpow]
    generalize (-x.exp).toNat = k
    have hd : 0 < 2 ^ k := by positivity
    have hmod : x.mant * 10 ^ 6 % 2 ^ k < 2 ^ k := Nat.mod_lt _ hd
    have hdm := Nat.div_add_mod (x.mant * 10 ^ 6) (2 ^ k)
    have hT : (x.mant : ℚ) * ((2 : ℚ) ^ k)⁻¹ * 10 ^ 6
        = ((2 ^ k * (x.mant * 10 ^ 6 / 2 ^ k) + x.mant * 10 ^ 6 % 2 ^ k : ℕ) : ℚ)
          / ((2 ^ k : ℕ) : ℚ) := by
      rw [hdm]
      push_cast
      field_simp
      left
      norm_num
    rw [hT]
    exact round_close (2 ^ k) (x.mant * 10 ^ 6 / 2 ^ k) (x.mant * 10 ^ 6 % 2 ^ k) hd hmod

theorem padZeros_length (n : Nat) (h : n < 10 ^ 6) : (Float64.padZeros 6 n).length = 6 := by
  have hlen := Nat.repr_length n 6 (by decide) h
  unfold Float64.padZeros
  rw [String.length_append]
  have : (String.mk (List.replicate (6 - (Nat.repr n).length) (Char.ofNat 48))).length
      = 6 - (Nat.repr n).length := List.length_replicate _ _
  rw [this]
  omega

theorem padZeros_isDigit (width n : Nat) :
    ∀ c ∈ (Float64.padZeros width n).data, c.isDigit = true := by
  intro c hc
  unfold Float64.padZeros at hc
  rw [String.data_append, List.mem_append] at hc
  rcases hc with hc | hc
  · have : c = Char.ofNat 48 := (List.mem_replicate.1 hc).2
    rw [this]
    decide
  · exact repr_isDigit n c hc

/-- C18: under the tag DOUBLE a number renders in fixed-point notation: a
minus sign when its sign bit is set, the decimal digits of an integer part, a
point, and exactly six decimal digits, nothing else; the integer and the six
digits together are the number of millionths nearest to the magnitude of the
value. -/
theorem ValueToSQLValue_double (lib : GoLib) (m : TypeMap) (f : String) (x : Float64)
    (h : m.index "" f = "DOUBLE") :
    ∃ n : ℕ, |(n : ℚ) - |x.toRat| * 10 ^ 6| ≤ 1 / 2
      ∧ TypeMap.ValueToSQLValue lib m f (.num x)
        = .ok ((if x.neg then "-" else "") ++ Nat.repr (n / 10 ^ 6) ++ "."
            ++ Float64.padZeros 6 (n % 10 ^ 6))
      ∧ (∀ c ∈ (Nat.repr (n / 10 ^ 6)).data, c.isDigit = true)
      ∧ (Float64.padZeros 6 (n % 10 ^ 6)).length = 6
      ∧ ∀ c ∈ (Float64.padZeros 6 (n % 10 ^ 6)).data, c.isDigit = true := by
  refine ⟨x.scaled6, scaled6_close x, ?_, repr_isDigit _,
    padZeros_length _ (Nat.mod_lt _ (by decide)), padZeros_isDigit _ _⟩
  unfold TypeMap.ValueToSQLValue
  rw [if_neg (by rw [h]; decide), if_pos h]
  rfl

/-- Witness of C18: under the DOUBLE field of the test 3.14 renders as
`3.140000`. -/
theorem ValueToSQLValue_double_witness :
    (∃ n : ℕ, |(n : ℚ) - |Float64.toRat ⟨false, 7070651414971679, -51⟩| * 10 ^ 6| ≤ 1 / 2
      ∧ TypeMap.ValueToSQLValue scenarioLib testTypeMap "field2"
          (.num ⟨false, 7070651414971679, -51⟩)
        = .ok ((if (Float64.mk false 7070651414971679 (-51)).neg then "-" else "")
            ++ Nat.repr (n / 10 ^ 6) ++ "." ++ Float64.padZeros 6 (n % 10 ^ 6))
      ∧ (∀ c ∈ (Nat.repr (n / 10 ^ 6)).data, c.isDigit = true)
      ∧ (Float64.padZeros 6 (n % 10 ^ 6)).length = 6
      ∧ ∀ c ∈ (Float64.padZeros 6 (n % 10 ^ 6)).data, c.isDigit = true)
    ∧ TypeMap.ValueToSQLValue scenarioLib testTypeMap "field2"
        (.num ⟨false, 7070651414971679, -51⟩) = .ok "3.140000" :=
  ⟨ValueToSQLValue_double scenarioLib testTypeMap "field2" ⟨false, 7070651414971679, -51⟩
    (by decide), rfl⟩

/-! ## An unterminated last line -/

theorem ReadBytes_no_newline (l : List Char) (h : '\n' ∉ l) : ReadBytes l = none := by
  induction l with
  | nil => rfl
  | cons c cs ih =>
    have hc : c ≠ '\n' := fun hc => h (by simp [hc])
    have hcs : '\n' ∉ cs := fun hcs => h (by simp [hcs])
    simp [ReadBytes, hc, ih hcs]

theorem loop_tail (lib : GoLib) (table : String) (create : Bool) (m : TypeMap)
    (recs : List Rendered) (tail : List Char) (out : String)
    (hne : tail ≠ []) (hnl : '\n' ∉ tail)
    (h : ∀ rec ∈ recs, '\n' ∉ rec.line.data
      ∧ lib.unmarshal (rec.line ++ "\n") = .ok rec.object
      ∧ JsonObject.CreateValueStatement lib rec.object m = .ok (rec.tuple, none)) :
    MainLoop.loop lib table create m false out
        ((unlines (recs.map Rendered.line)).data ++ tail)
      = ⟨out ++ unlines (recs.map (fun rec => rec.tuple ++ ",") ++ [";"]), none⟩ := by
  induction recs generalizing out with
  | nil =>
    rw [MainLoop_loop_eof lib table create m false out _
      (by simpa [unlines] using ReadBytes_no_newline tail hnl)]
    simp [println, unlines, String.append_assoc]
  | cons rec recs ih =>
    have hrec := h rec (by simp)
    have hrest : ∀ r ∈ recs, '\n' ∉ r.line.data
        ∧ lib.unmarshal (r.line ++ "\n") = .ok r.object
        ∧ JsonObject.CreateValueStatement lib r.object m = .ok (r.tuple, none) :=
      fun r hr => h r (by simp [hr])
    have hin : (unlines ((rec :: recs).map Rendered.line)).data ++ tail
        = rec.line.data ++ '\n' :: ((unlines (recs.map Rendered.line)).data ++ tail) := by
      rw [List.map_cons, unlines_cons_data]
      simp
    have hnonempty : (unlines (recs.map Rendered.line)).data ++ tail ≠ [] := by
      simp [hne]
    rw [hin, MainLoop_loop_line lib table create m false out _ _ _
        (ReadBytes_line rec.line.data _ hrec.1), mk_line, hrec.2.1]
    simp only [Bool.false_eq_true, if_false, hrec.2.2, if_neg hnonempty]
    rw [ih _ hrest]
    simp [println, unlines, String.append_assoc]

/-- C20: a last line that is not empty and not ended by a newline is dropped
without being decoded, whatever the decoder would make of it: alone it leaves
the single line `;`; after one or more newline-terminated records that decode
and render, every tuple line, the last one too, ends in a comma before the
line `;`.  The empty input gives the single line `;`, with no CREATE TABLE
line and no INSERT header. -/
theorem MainLoop_unterminated_last_line (lib : GoLib) (table : String) (create : Bool)
    (tail : String) (hne : tail ≠ "") (hnl : '\n' ∉ tail.data) :
    MainLoop lib table create tail = ⟨";\n", none⟩
    ∧ (∀ (first : Rendered) (more : List Rendered),
        (∀ rec ∈ first :: more, '\n' ∉ rec.line.data
          ∧ lib.unmarshal (rec.line ++ "\n") = .ok rec.object
          ∧ JsonObject.CreateValueStatement lib rec.object
              (JsonObject.CreateTypeMap first.object) = .ok (rec.tuple, none)) →
        MainLoop lib table create (unlines ((first :: more).map Rendered.line) ++ tail)
          = ⟨unlines (headerLines table create first.object
              ++ (first :: more).map (fun rec => rec.tuple ++ ",") ++ [";"]), none⟩)
    ∧ MainLoop lib table create "" = ⟨";\n", none⟩ := by
  have htail : tail.data ≠ [] := fun h => hne (String.ext h)
  refine ⟨?_, ?_, ?_⟩
  · unfold MainLoop
    rw [MainLoop_loop_eof lib table create _ true "" _ (ReadBytes_no_newline tail.data hnl)]
    rfl
  · intro first more h
    have hfirst := h first (by simp)
    have hmore : ∀ rec ∈ more, '\n' ∉ rec.line.data
        ∧ lib.unmarshal (rec.line ++ "\n") = .ok rec.object
        ∧ JsonObject.CreateValueStatement lib rec.object
            (JsonObject.CreateTypeMap first.object) = .ok (rec.tuple, none) :=
      fun rec hrec => h rec (by simp [hrec])
    have hin : (unlines ((first :: more).map Rendered.line) ++ tail).data
        = first.line.data ++ '\n' :: ((unlines (more.map Rendered.line)).data ++ tail.data) := by
      rw [String.data_append, List.map_cons, unlines_cons_data]
      simp
    have hnonempty : (unlines (more.map Rendered.line)).data ++ tail.data ≠ [] := by
      simp [htail]
    unfold MainLoop
    rw [hin, MainLoop_loop_line lib table create _ true "" _ _ _
        (ReadBytes_line first.line.data _ hfirst.1), mk_line, hfirst.2.1]
    simp only [if_true, firstLine_eq, hfirst.2.2, if_neg hnonempty, String.empty_append]
    rw [loop_tail lib table create _ more tail.data _ htail hnl hmore]
    simp [println, unlines, unlines_append, String.append_assoc]
  · unfold MainLoop
    rw [MainLoop_loop_eof lib table create _ true "" _ (by rfl)]
    rfl

/-- Witness of C20: after the line binding `a` to 1, the unterminated line
binding `a` to 2 is dropped and the tuple of the first record keeps its
comma. -/
theorem MainLoop_unterminated_last_line_witness :
    MainLoop scenarioLib "t" false "\x7b\"a\":1\x7d\n\x7b\"a\":2\x7d"
      = ⟨"INSERT INTO t (a) VALUES\n(1),\n;\n", none⟩ := by
  have h := (MainLoop_unterminated_last_line scenarioLib "t" false "\x7b\"a\":2\x7d"
    (by decide) (by decide)).2.1 ⟨"\x7b\"a\":1\x7d", recordA (.num ⟨false, 1, 0⟩), "(1)"⟩ []
    (by
      intro rec hrec
      simp only [List.mem_singleton] at hrec
      subst hrec
      exact ⟨by decide, rfl, rfl⟩)
  have hin : unlines (List.map Rendered.line
      [⟨"\x7b\"a\":1\x7d", recordA (.num ⟨false, 1, 0⟩), "(1)"⟩]) ++ "\x7b\"a\":2\x7d"
      = "\x7b\"a\":1\x7d\n\x7b\"a\":2\x7d" := rfl
  rw [hin] at h
  rw [h]
  rfl

end Json2sql
